import Mathlib

/-!
Verification of the Mind2Web-2 cache engine and crawl pipeline.

A shallow embedding, in Lean 4, of the URL-identity / content-addressable
store / crawl-orchestration core of the Mind2Web-2 repository:

* `mind2web2/utils/url_tools.py` (`remove_utm_parameters`,
  `normalize_url_simple`),
* `mind2web2/utils/cache_filesys.py` (`CacheFileSys`),
* `mind2web2/utils/page_info_retrieval.py` (`BatchBrowserManager.capture_page`,
  sentinel constants),
* `batch_answer_cache.py` (`crawl_one_page` and the orchestration loop).

The Python code leans on `urllib.parse` and `hashlib`, so the embedding
includes faithful models of the relevant CPython 3.11 standard-library
functions (`quote`, `quote_plus`, `unquote`, `urlsplit`, `urlparse`,
`urlunparse`, `urldefrag`, `parse_qs`, `urlencode`) and of MD5.

Modelling conventions:
* Python strings are Lean `String`s (processed as `List Char`); `str.lower()`
  is modelled for ASCII (all inputs exercised by theorems are ASCII).
* Code that can raise returns `Except PyErr α`; a bare `try/except` around a
  call is a `match` on that result.
* Python dicts are association lists in insertion order, with
  replace-in-place update, matching CPython's ordered-dict semantics.
* External collaborators (the PDF sniffer/fetcher, the browser, the PIL
  image re-encoder) are modelled at their interface boundary as oracle
  data, exactly as the specification describes them.
-/

set_option maxRecDepth 100000

namespace M2W2

/-- Python exception classes that the modelled code can raise. -/
inductive PyErr where
  | valueError
  | keyError
  | attributeError
  | otherError
  deriving DecidableEq, Repr

/-! ## Character helpers (ASCII, as used by `urllib.parse`) -/

def isAsciiUpper (c : Char) : Bool := 'A' ≤ c && c ≤ 'Z'

def isAsciiLower (c : Char) : Bool := 'a' ≤ c && c ≤ 'z'

def isAsciiAlpha (c : Char) : Bool := isAsciiUpper c || isAsciiLower c

def isAsciiDigit (c : Char) : Bool := '0' ≤ c && c ≤ '9'

/-- `str.lower()` on one character (ASCII range; non-ASCII pass through). -/
def pyLowerChar (c : Char) : Char :=
  if isAsciiUpper c then Char.ofNat (c.toNat + 32) else c

/-- Python `str.lower()` (modelled on the ASCII range). -/
def pyLower (s : String) : String := ⟨s.data.map pyLowerChar⟩

/-- Value of a hex digit (both cases), as in `urllib.parse._hextobyte`;
written over code points (48–57 digits, 97–102 lower, 65–70 upper). -/
def hexDigitVal? (c : Char) : Option Nat :=
  let n := c.toNat
  if 48 ≤ n && n ≤ 57 then some (n - 48)
  else if 97 ≤ n && n ≤ 102 then some (n - 87)
  else if 65 ≤ n && n ≤ 70 then some (n - 55)
  else none

/-- Upper-case hex digit for `n < 16` (percent-encoding uses `%02X`). -/
def hexUpperDigit (n : Nat) : Char :=
  if n < 10 then Char.ofNat ('0'.toNat + n) else Char.ofNat ('A'.toNat + n - 10)

/-! ## List-level string helpers -/

/-- `needle` is a prefix of `haystack` (executable, on char lists). -/
def isPre : List Char → List Char → Bool
  | c :: cs, d :: ds => c == d && isPre cs ds
  | p, _ => p.isEmpty

/-- Substring membership (`sub in s` in Python), on char lists. -/
def hasSub (sub : List Char) : List Char → Bool
  | [] => sub.isEmpty
  | c :: rest => isPre sub (c :: rest) || hasSub sub rest

def strHasSub (sub s : String) : Bool := hasSub sub.data s.data

/-- Parts before and after the *first* occurrence of a one-char separator
(`none` when the separator does not occur); Python `s.partition(sep)`. -/
def splitOnceChar (sep : Char) : List Char → Option (List Char × List Char)
  | [] => none
  | c :: rest =>
    if c == sep then some ([], rest)
    else match splitOnceChar sep rest with
      | some (a, b) => some (c :: a, b)
      | none => none

/-- Helper for `splitAllChar` (accumulates the current piece reversed). -/
def splitAllAux (sep : Char) : List Char → List Char → List (List Char)
  | [], acc => [acc.reverse]
  | c :: rest, acc =>
    if c == sep then acc.reverse :: splitAllAux sep rest []
    else splitAllAux sep rest (c :: acc)

/-- Python `str.split(sep)` for a one-character separator. -/
def splitAllChar (sep : Char) (s : List Char) : List (List Char) :=
  splitAllAux sep s []

/-- Python `str.replace(old, new)` for one-character `old`/`new`. -/
def replaceChar (oldc newc : Char) (s : List Char) : List Char :=
  s.map fun c => if c == oldc then newc else c

/-- Python `str.startswith(p)`. -/
def strStarts (s p : String) : Bool := isPre p.data s.data

/-- Python `str.endswith(p)`. -/
def strEnds (s p : String) : Bool := isPre p.data.reverse s.data.reverse

/-- Python `s[:-1]` (drop the last character). -/
def strDropLast (s : String) : String := ⟨s.data.dropLast⟩

/-- Python `s[i:]` for ASCII strings (character-indexed drop). -/
def strDropN (s : String) (n : Nat) : String := ⟨s.data.drop n⟩

/-! ## UTF-8 (CPython `str.encode('utf-8')` / `bytes.decode('utf-8', 'replace')`)

Bytes are `Nat`s below 256. -/

/-- UTF-8 encoding of one code point. -/
def utf8EncodeChar (c : Char) : List Nat :=
  let n := c.toNat
  if n < 0x80 then [n]
  else if n < 0x800 then [0xC0 + n / 64, 0x80 + n % 64]
  else if n < 0x10000 then
    [0xE0 + n / 4096, 0x80 + (n / 64) % 64, 0x80 + n % 64]
  else
    [0xF0 + n / 262144, 0x80 + (n / 4096) % 64, 0x80 + (n / 64) % 64,
      0x80 + n % 64]

/-- UTF-8 encoding of a whole string (`s.encode('utf-8')`). -/
def utf8Encode (s : List Char) : List Nat := s.flatMap utf8EncodeChar

/-- Continuation byte test (`0x80 ≤ b ≤ 0xBF`). -/
def isCont (b : Nat) : Bool := 0x80 ≤ b && b ≤ 0xBF

/-- The U+FFFD replacement character used by the `'replace'` error handler. -/
def replChar : Char := Char.ofNat 0xFFFD

/-- First continuation byte constraints for a 3-byte lead. -/
def cont2ok (b b2 : Nat) : Bool :=
  if b == 0xE0 then 0xA0 ≤ b2 && b2 ≤ 0xBF
  else if b == 0xED then 0x80 ≤ b2 && b2 ≤ 0x9F
  else isCont b2

/-- First continuation byte constraints for a 4-byte lead. -/
def cont3ok (b b2 : Nat) : Bool :=
  if b == 0xF0 then 0x90 ≤ b2 && b2 ≤ 0xBF
  else if b == 0xF4 then 0x80 ≤ b2 && b2 ≤ 0x8F
  else isCont b2

/-- Fuelled UTF-8 decoder body (`fuel` bounds the number of steps; every
step consumes at least one byte, so `fuel = length` is always enough —
structural recursion on `fuel` keeps the definition kernel-reducible). -/
def utf8DecodeReplaceFuel : Nat → List Nat → List Char
  | 0, _ => []
  | _ + 1, [] => []
  | f + 1, b :: bs =>
    if b < 0x80 then Char.ofNat b :: utf8DecodeReplaceFuel f bs
    else if 0xC2 ≤ b && b ≤ 0xDF then
      match bs with
      | b2 :: bs2 =>
        if isCont b2 then
          Char.ofNat ((b - 0xC0) * 64 + (b2 - 0x80)) :: utf8DecodeReplaceFuel f bs2
        else replChar :: utf8DecodeReplaceFuel f (b2 :: bs2)
      | [] => [replChar]
    else if 0xE0 ≤ b && b ≤ 0xEF then
      match bs with
      | b2 :: b3 :: bs3 =>
        if cont2ok b b2 && isCont b3 then
          Char.ofNat ((b - 0xE0) * 4096 + (b2 - 0x80) * 64 + (b3 - 0x80)) ::
            utf8DecodeReplaceFuel f bs3
        else if cont2ok b b2 then replChar :: utf8DecodeReplaceFuel f (b3 :: bs3)
        else replChar :: utf8DecodeReplaceFuel f (b2 :: b3 :: bs3)
      | [b2] =>
        if cont2ok b b2 then [replChar]
        else replChar :: utf8DecodeReplaceFuel f [b2]
      | [] => [replChar]
    else if 0xF0 ≤ b && b ≤ 0xF4 then
      match bs with
      | b2 :: b3 :: b4 :: bs4 =>
        if cont3ok b b2 && isCont b3 && isCont b4 then
          Char.ofNat ((b - 0xF0) * 262144 + (b2 - 0x80) * 4096 +
              (b3 - 0x80) * 64 + (b4 - 0x80)) :: utf8DecodeReplaceFuel f bs4
        else if cont3ok b b2 && isCont b3 then
          replChar :: utf8DecodeReplaceFuel f (b4 :: bs4)
        else if cont3ok b b2 then
          replChar :: utf8DecodeReplaceFuel f (b3 :: b4 :: bs4)
        else replChar :: utf8DecodeReplaceFuel f (b2 :: b3 :: b4 :: bs4)
      | [b2, b3] =>
        if cont3ok b b2 && isCont b3 then [replChar]
        else if cont3ok b b2 then replChar :: utf8DecodeReplaceFuel f [b3]
        else replChar :: utf8DecodeReplaceFuel f [b2, b3]
      | [b2] =>
        if cont3ok b b2 then [replChar]
        else replChar :: utf8DecodeReplaceFuel f [b2]
      | [] => [replChar]
    else replChar :: utf8DecodeReplaceFuel f bs

/-- UTF-8 decoding with the `'replace'` error handler: one replacement
character per rejected leading byte / truncated sequence, as in CPython's
decoder on the byte strings the modelled code produces. -/
def utf8DecodeReplace (bs : List Nat) : List Char :=
  utf8DecodeReplaceFuel bs.length bs

/-! ## `urllib.parse.unquote`

CPython decodes maximal ASCII runs through `unquote_to_bytes` (chars become
their ASCII bytes, `%XX` pairs become raw bytes) followed by a UTF-8 decode
with `errors='replace'`; non-ASCII characters pass through unchanged.  The
walk below is byte-for-byte equivalent: ASCII characters and decoded `%XX`
bytes accumulate in `buf` (reversed), which is flushed through the UTF-8
decoder at non-ASCII characters and at the end of the input. -/
def unquoteCore : List Char → List Nat → List Char
  | [], buf => utf8DecodeReplace buf.reverse
  | '%' :: c1 :: c2 :: rest, buf =>
    match hexDigitVal? c1, hexDigitVal? c2 with
    | some h, some l => unquoteCore rest ((h * 16 + l) :: buf)
    | _, _ => unquoteCore (c1 :: c2 :: rest) ('%'.toNat :: buf)
  | c :: rest, buf =>
    if c == '%' || c.toNat < 0x80 then unquoteCore rest (c.toNat :: buf)
    else utf8DecodeReplace buf.reverse ++ c :: unquoteCore rest []

/-- `urllib.parse.unquote(s)` with the default UTF-8/`'replace'` handling. -/
def pyUnquote (s : String) : String := ⟨unquoteCore s.data []⟩

/-! ## `urllib.parse.quote` / `quote_plus` -/

/-- `urllib.parse._ALWAYS_SAFE`: ASCII letters, digits, and `_.-~`. -/
def alwaysSafe (c : Char) : Bool :=
  isAsciiAlpha c || isAsciiDigit c ||
    c == '_' || c == '.' || c == '-' || c == '~'

/-- Percent-encode one byte as `%XX` (upper-case hex). -/
def pctByte (b : Nat) : List Char :=
  ['%', hexUpperDigit (b / 16), hexUpperDigit (b % 16)]

/-- `urllib.parse.quote(s, safe)`: encode to UTF-8, keep bytes that are
always-safe or in `safe` (non-ASCII characters in `safe` are ignored, as
`safe.encode('ascii', 'ignore')` does), percent-encode the rest. -/
def pyQuote (s : String) (safe : String) : String :=
  ⟨(utf8Encode s.data).flatMap fun b =>
    if b < 0x80 && (alwaysSafe (Char.ofNat b) || safe.data.contains (Char.ofNat b)) then
      [Char.ofNat b]
    else pctByte b⟩

/-- `urllib.parse.quote_plus(s, safe)`: like `quote` but spaces become `+`
(when the input has a space, it is quoted with space marked safe and the
result's spaces are then replaced by `+`). -/
def pyQuotePlus (s : String) (safe : String) : String :=
  if s.data.contains ' ' then
    ⟨replaceChar ' ' '+' (pyQuote s (safe.push ' ')).data⟩
  else pyQuote s safe

/-- Fuelled body of `strReplace` (each step consumes at least one input
character, so `fuel = length` suffices; structural recursion on `fuel`
keeps the definition kernel-reducible). -/
def replaceSubFuel (p : Char) (ps : List Char) (rep : List Char) :
    Nat → List Char → List Char
  | 0, l => l
  | _ + 1, [] => []
  | f + 1, c :: rest =>
    if isPre (p :: ps) (c :: rest) then
      rep ++ replaceSubFuel p ps rep f (rest.drop ps.length)
    else c :: replaceSubFuel p ps rep f rest

/-- Python `s.replace(pat, rep)` for a non-empty pattern: replace every
left-to-right, non-overlapping occurrence. -/
def strReplace (s pat rep : String) : String :=
  match pat.data with
  | [] => s
  | p :: ps => ⟨replaceSubFuel p ps rep.data s.data.length s.data⟩

/-- Join a list of strings with a separator (`sep.join(l)` in Python). -/
def joinSep (sep : String) : List String → String
  | [] => ""
  | [x] => x
  | x :: y :: xs => x ++ sep ++ joinSep sep (y :: xs)

/-! ## `urllib.parse.urlsplit` / `urlparse` / `urlunparse` / `urldefrag`

CPython 3.11 semantics: leading C0-control/space stripping, removal of all
tab/CR/LF characters, scheme detection requiring a leading ASCII letter,
authority split, and the "Invalid IPv6 URL" `ValueError` on an authority
containing `[` without `]` or vice versa.  (CPython additionally validates
the contents of a *balanced* bracketed host through the `ipaddress`
library; that external validation is outside the model, which accepts
balanced brackets.  The NFKC check on non-ASCII authorities is likewise out
of scope: theorems evaluate the model on ASCII inputs.) -/

/-- Fields of `urllib.parse.SplitResult`. -/
structure SplitResult where
  scheme : String
  netloc : String
  path : String
  query : String
  fragment : String
  deriving DecidableEq, Repr

/-- Fields of `urllib.parse.ParseResult` (`urlsplit` plus `params`). -/
structure ParseResult where
  scheme : String
  netloc : String
  path : String
  params : String
  query : String
  fragment : String
  deriving DecidableEq, Repr

/-- Strip leading WHATWG C0-control-or-space characters. -/
def lstripControl : List Char → List Char
  | [] => []
  | c :: rest => if c.toNat ≤ 0x20 then lstripControl rest else c :: rest

/-- `urllib.parse.scheme_chars`. -/
def schemeCharOk (c : Char) : Bool :=
  isAsciiAlpha c || isAsciiDigit c || c == '+' || c == '-' || c == '.'

/-- The pure splitting part of `urlsplit`: strip leading C0/space, remove
tab/CR/LF, detect the scheme, split off the authority, then the fragment
(at the first `#`), then the query (at the first `?`). -/
def urlsplitRaw (url0 : String) : SplitResult :=
  let u1 := (lstripControl url0.data).filter fun c =>
    !(c == '\t' || c == '\r' || c == '\n')
  let schemeHit : Option (List Char × List Char) :=
    match splitOnceChar ':' u1 with
    | some ba =>
      match ba.1 with
      | [] => none
      | c :: cs =>
        if isAsciiAlpha c && cs.all schemeCharOk then some (c :: cs, ba.2)
        else none
    | none => none
  let scheme : String :=
    match schemeHit with
    | some ba => pyLower ⟨ba.1⟩
    | none => ""
  let u2 : List Char :=
    match schemeHit with
    | some ba => ba.2
    | none => u1
  let netlocSplit : List Char × List Char :=
    if isPre ['/', '/'] u2 then
      let rest := u2.drop 2
      (rest.takeWhile fun c => !(c == '/' || c == '?' || c == '#'),
        rest.dropWhile fun c => !(c == '/' || c == '?' || c == '#'))
    else ([], u2)
  let netloc := netlocSplit.1
  let u3 := netlocSplit.2
  let fragSplit : List Char × List Char :=
    match splitOnceChar '#' u3 with
    | some ab => ab
    | none => (u3, [])
  let querySplit : List Char × List Char :=
    match splitOnceChar '?' fragSplit.1 with
    | some ab => ab
    | none => (fragSplit.1, [])
  ⟨scheme, ⟨netloc⟩, ⟨querySplit.1⟩, ⟨querySplit.2⟩, ⟨fragSplit.2⟩⟩

/-- `urllib.parse.urlsplit` (CPython 3.11): raise the "Invalid IPv6 URL"
`ValueError` when the authority contains `[` without `]` or vice versa.
(CPython performs this check before splitting fragment and query, which
cannot change the authority, so checking the final authority is
equivalent.) -/
def urlsplit (url0 : String) : Except PyErr SplitResult :=
  let r := urlsplitRaw url0
  if (r.netloc.data.contains '[' && !r.netloc.data.contains ']') ||
      (r.netloc.data.contains ']' && !r.netloc.data.contains '[') then
    .error PyErr.valueError
  else .ok r

/-- Split `s` around the *last* occurrence of `sep` (parts exclude `sep`). -/
def splitLastChar (sep : Char) (s : List Char) : Option (List Char × List Char) :=
  match splitOnceChar sep s.reverse with
  | some (a, b) => some (b.reverse, a.reverse)
  | none => none

/-- `urllib.parse._splitparams`: split `;params` off the last path segment. -/
def splitParams (url : List Char) : List Char × List Char :=
  match splitLastChar '/' url with
  | some (pre, suf) =>
    (match splitOnceChar ';' suf with
     | some (a, b) => (pre ++ '/' :: a, b)
     | none => (url, []))
  | none =>
    match splitOnceChar ';' url with
    | some (a, b) => (a, b)
    | none => (url, [])

/-- `urllib.parse.urlparse` (CPython 3.11). -/
def urlparse (url : String) : Except PyErr ParseResult :=
  match urlsplit url with
  | .error e => .error e
  | .ok sr =>
    if sr.path.data.contains ';' then
      let (p, par) := splitParams sr.path.data
      .ok ⟨sr.scheme, sr.netloc, ⟨p⟩, ⟨par⟩, sr.query, sr.fragment⟩
    else
      .ok ⟨sr.scheme, sr.netloc, sr.path, "", sr.query, sr.fragment⟩

/-- `urllib.parse.urlunsplit`. -/
def urlunsplit (scheme netloc path query fragment : String) : String :=
  let url := path
  let url :=
    if netloc ≠ "" || (url ≠ "" && strStarts url "//") then
      let url' := if url ≠ "" && !strStarts url "/" then "/" ++ url else url
      "//" ++ netloc ++ url'
    else url
  let url := if scheme ≠ "" then scheme ++ ":" ++ url else url
  let url := if query ≠ "" then url ++ "?" ++ query else url
  if fragment ≠ "" then url ++ "#" ++ fragment else url

/-- `urllib.parse.urlunparse`. -/
def urlunparse (scheme netloc path params query fragment : String) : String :=
  let path := if params ≠ "" then path ++ ";" ++ params else path
  urlunsplit scheme netloc path query fragment

/-- `urllib.parse.urldefrag`: when a `#` is present, the URL is round-tripped
through `urlparse`/`urlunparse` with the fragment dropped (so scheme casing,
`;`-params and unsafe characters are also normalised); otherwise the string
is returned unchanged. -/
def urldefrag (url : String) : Except PyErr (String × String) :=
  if url.data.contains '#' then
    match urlparse url with
    | .error e => .error e
    | .ok p =>
      .ok (urlunparse p.scheme p.netloc p.path p.params p.query "", p.fragment)
  else .ok (url, "")

/-! ## `urllib.parse.parse_qs` / `urlencode` -/

/-- `urllib.parse.parse_qsl(qs, keep_blank_values=True)`: split on `&`,
drop empty chunks, split each chunk at the first `=` (missing value becomes
the empty string), turn `+` into spaces and percent-decode names and
values. -/
def parseQsl (qs : String) : List (String × String) :=
  let pieces := if qs.data.isEmpty then [] else splitAllChar '&' qs.data
  pieces.filterMap fun nv =>
    if nv.isEmpty then none
    else
      let dec : List Char → String := fun l => pyUnquote ⟨replaceChar '+' ' ' l⟩
      match splitOnceChar '=' nv with
      | some (n, v) => some (dec n, dec v)
      | none => some (dec nv, dec [])

/-- `urllib.parse.parse_qs(qs, keep_blank_values=True)`: group `parse_qsl`
pairs into an insertion-ordered dict of value lists. -/
def parseQs (qs : String) : List (String × List String) :=
  (parseQsl qs).foldl
    (fun acc nv =>
      if acc.any (·.1 == nv.1) then
        acc.map fun p => if p.1 == nv.1 then (p.1, p.2 ++ [nv.2]) else p
      else acc ++ [(nv.1, [nv.2])])
    []

/-- `urllib.parse.urlencode(query, doseq=True)` on a dict of string lists
(the only shape the modelled code passes), with the default
`quote_via=quote_plus` and `safe=''`. -/
def urlencodeQS (query : List (String × List String)) : String :=
  joinSep "&" (query.flatMap fun kv =>
    kv.2.map fun v => pyQuotePlus kv.1 "" ++ "=" ++ pyQuotePlus v "")

/-! ## `mind2web2/utils/url_tools.py` -/

/-- `url_tools.remove_utm_parameters`: parse the URL; if it has no query,
return it unchanged; otherwise drop every query parameter whose name starts
with `utm_` and rebuild the URL. -/
def remove_utm_parameters (url : String) : Except PyErr String :=
  match urlparse url with
  | .error e => .error e
  | .ok p =>
    if p.query = "" then .ok url
    else
      let params := parseQs p.query
      let filtered := params.filter fun kv => !strStarts kv.1 "utm_"
      let newQuery := urlencodeQS filtered
      .ok (urlunparse p.scheme p.netloc p.path p.params newQuery p.fragment)

/-- The trailing-slash rule shared by `normalize_url_simple` and
`CacheFileSys`: drop one trailing `/` when the string is longer than one
character and does not end in `://`. -/
def stripTrailingSlash (s : String) : String :=
  if strEnds s "/" && decide (s.data.length > 1) && !strEnds s "://" then
    strDropLast s
  else s

/-- `url_tools.normalize_url_simple`: strip UTM parameters, drop the
fragment, percent-decode, strip a trailing slash, re-filter UTM parameters
on the decoded query (re-encoding it), force `http` to `https`, drop
`www.` host labels, and lower-case. -/
def normalize_url_simple (url0 : String) : Except PyErr String :=
  match remove_utm_parameters url0 with
  | .error e => .error e
  | .ok url =>
  match urldefrag url with
  | .error e => .error e
  | .ok df =>
  let decoded := pyUnquote df.1
  let decoded := stripTrailingSlash decoded
  match urlparse decoded with
  | .error e => .error e
  | .ok p =>
  let decoded :=
    if p.query ≠ "" then
      let params := parseQs p.query
      let filtered := params.filter fun kv => !strStarts kv.1 "utm_"
      let newQuery := urlencodeQS filtered
      urlunparse p.scheme p.netloc p.path p.params newQuery p.fragment
    else decoded
  let decoded :=
    if strStarts decoded "http://" then "https://" ++ strDropN decoded 7
    else decoded
  let decoded :=
    if strHasSub "://www." decoded then strReplace decoded "://www." "://"
    else decoded
  .ok (pyLower decoded)

/-! ## MD5 (`hashlib.md5(...).hexdigest()`)

A direct RFC 1321 implementation over byte lists, with 32-bit words as
`Nat`s reduced `% 2^32`. -/

/-- The 64 MD5 sine-derived constants. -/
def md5K : List Nat := [
  0xD76AA478, 0xE8C7B756, 0x242070DB, 0xC1BDCEEE,
  0xF57C0FAF, 0x4787C62A, 0xA8304613, 0xFD469501,
  0x698098D8, 0x8B44F7AF, 0xFFFF5BB1, 0x895CD7BE,
  0x6B901122, 0xFD987193, 0xA679438E, 0x49B40821,
  0xF61E2562, 0xC040B340, 0x265E5A51, 0xE9B6C7AA,
  0xD62F105D, 0x02441453, 0xD8A1E681, 0xE7D3FBC8,
  0x21E1CDE6, 0xC33707D6, 0xF4D50D87, 0x455A14ED,
  0xA9E3E905, 0xFCEFA3F8, 0x676F02D9, 0x8D2A4C8A,
  0xFFFA3942, 0x8771F681, 0x6D9D6122, 0xFDE5380C,
  0xA4BEEA44, 0x4BDECFA9, 0xF6BB4B60, 0xBEBFBC70,
  0x289B7EC6, 0xEAA127FA, 0xD4EF3085, 0x04881D05,
  0xD9D4D039, 0xE6DB99E5, 0x1FA27CF8, 0xC4AC5665,
  0xF4292244, 0x432AFF97, 0xAB9423A7, 0xFC93A039,
  0x655B59C3, 0x8F0CCC92, 0xFFEFF47D, 0x85845DD1,
  0x6FA87E4F, 0xFE2CE6E0, 0xA3014314, 0x4E0811A1,
  0xF7537E82, 0xBD3AF235, 0x2AD7D2BB, 0xEB86D391]

/-- The MD5 per-step left-rotation amounts. -/
def md5S : List Nat := [
  7, 12, 17, 22, 7, 12, 17, 22, 7, 12, 17, 22, 7, 12, 17, 22,
  5, 9, 14, 20, 5, 9, 14, 20, 5, 9, 14, 20, 5, 9, 14, 20,
  4, 11, 16, 23, 4, 11, 16, 23, 4, 11, 16, 23, 4, 11, 16, 23,
  6, 10, 15, 21, 6, 10, 15, 21, 6, 10, 15, 21, 6, 10, 15, 21]

def mask32 : Nat := 4294967296

/-- 32-bit left rotation. -/
def rotl32 (x s : Nat) : Nat :=
  ((x <<< s) % mask32) ||| (x >>> (32 - s))

/-- 32-bit complement. -/
def not32 (x : Nat) : Nat := x ^^^ 0xFFFFFFFF

/-- MD5 padding: `0x80`, zeros to 56 mod 64, 8-byte little-endian bit length. -/
def md5Pad (msg : List Nat) : List Nat :=
  let len := msg.length
  let padLen := (55 + 64 - len % 64) % 64 + 1
  let bitLen := len * 8
  msg ++ 0x80 :: List.replicate (padLen - 1) 0 ++
    (List.range 8).map fun i => (bitLen >>> (8 * i)) % 256

/-- Fuelled body of `chunks64` (each step consumes at least one byte). -/
def chunks64Fuel : Nat → List Nat → List (List Nat)
  | 0, _ => []
  | _ + 1, [] => []
  | f + 1, b :: rest => ((b :: rest).take 64) :: chunks64Fuel f ((b :: rest).drop 64)

/-- Split a byte list into 64-byte chunks. -/
def chunks64 (l : List Nat) : List (List Nat) := chunks64Fuel l.length l

/-- Little-endian 32-bit words of one 64-byte chunk. -/
def md5Words (chunk : List Nat) : List Nat :=
  (List.range 16).map fun i =>
    (chunk.getD (4 * i) 0) + (chunk.getD (4 * i + 1) 0) * 256 +
      (chunk.getD (4 * i + 2) 0) * 65536 + (chunk.getD (4 * i + 3) 0) * 16777216

/-- One MD5 step (step index `i`, state `(A, B, C, D)`). -/
def md5Step (m : List Nat) (st : Nat × Nat × Nat × Nat) (i : Nat) :
    Nat × Nat × Nat × Nat :=
  let (a, b, c, d) := st
  let (f, g) :=
    if i < 16 then ((b &&& c) ||| (not32 b &&& d), i)
    else if i < 32 then ((d &&& b) ||| (not32 d &&& c), (5 * i + 1) % 16)
    else if i < 48 then (b ^^^ c ^^^ d, (3 * i + 5) % 16)
    else (c ^^^ (b ||| not32 d), (7 * i) % 16)
  let f := (f + a + md5K.getD i 0 + m.getD g 0) % mask32
  (d, (b + rotl32 f (md5S.getD i 0)) % mask32, b, c)

/-- Process one 64-byte chunk. -/
def md5Chunk (st : Nat × Nat × Nat × Nat) (chunk : List Nat) :
    Nat × Nat × Nat × Nat :=
  let m := md5Words chunk
  let (a, b, c, d) := (List.range 64).foldl (md5Step m) st
  ((st.1 + a) % mask32, (st.2.1 + b) % mask32, (st.2.2.1 + c) % mask32,
    (st.2.2.2 + d) % mask32)

/-- Lower-case hex digit (MD5 `hexdigest()` output is lower-case). -/
def hexLowerDigit (n : Nat) : Char :=
  if n < 10 then Char.ofNat ('0'.toNat + n) else Char.ofNat ('a'.toNat + n - 10)

/-- Little-endian lower-case hex rendering of one 32-bit word. -/
def md5WordHex (w : Nat) : List Char :=
  (List.range 4).flatMap fun i =>
    let b := (w >>> (8 * i)) % 256
    [hexLowerDigit (b / 16), hexLowerDigit (b % 16)]

/-- MD5 of a byte list, as the lower-case hex digest string. -/
def md5HexBytes (msg : List Nat) : String :=
  let st := (chunks64 (md5Pad msg)).foldl md5Chunk
    (0x67452301, 0xEFCDAB89, 0x98BADCFE, 0x10325476)
  ⟨md5WordHex st.1 ++ md5WordHex st.2.1 ++ md5WordHex st.2.2.1 ++
    md5WordHex st.2.2.2⟩

/-- `hashlib.md5(s.encode('utf-8')).hexdigest()`. -/
def md5Hex (s : String) : String := md5HexBytes (utf8Encode s.data)

/-! ## Python dicts

Insertion-ordered association lists; assignment to an existing key updates
the value in place, assignment to a fresh key appends. -/

abbrev PyDict := List (String × String)

/-- `k in d` for a Python dict. -/
def dictContains (d : PyDict) (k : String) : Bool := d.any (·.1 == k)

/-- `d.get(k)` for a Python dict. -/
def dictGet? (d : PyDict) (k : String) : Option String :=
  (d.find? (·.1 == k)).map (·.2)

/-- `d[k] = v` for a Python dict. -/
def dictSet (d : PyDict) (k v : String) : PyDict :=
  if dictContains d k then d.map fun p => if p.1 == k then (p.1, v) else p
  else d ++ [(k, v)]

/-! ## `mind2web2/utils/cache_filesys.py` — `CacheFileSys`

The store's in-memory state is its `urls` dict (URL → `"web"`/`"pdf"`).
Disk activity is recorded as an ordered `StoreEvent` trace, so frame and
ordering claims can be stated about what each operation writes. -/

/-- Content written to a payload file.  `_convert_image_to_jpg` re-encodes
the screenshot through the external PIL library (and falls back to the raw
bytes when PIL fails); the claims never inspect the converted bytes, so
conversion is modelled as total tagging of the raw screenshot data. -/
inductive FileContent where
  | textContent (t : String)
  | jpegContent (raw : String)
  | pdfContent (bytes : String)
  deriving DecidableEq, Repr

/-- One observable store action, in program order. -/
inductive StoreEvent where
  | payloadWrite (name : String) (content : FileContent)
  | memIndexSet (key kind : String)
  | indexFileWrite (index : PyDict)
  deriving DecidableEq, Repr

/-- `CacheFileSys._convert_image_to_jpg` (external image codec; see
`FileContent`). -/
def _convert_image_to_jpg (screenshot : String) : FileContent :=
  .jpegContent screenshot

/-- What the on-disk `index.json` holds when a store is constructed. -/
inductive IndexFileState where
  | missing
  /-- The file cannot be read or is not syntactically valid JSON
  (`IOError` / `json.JSONDecodeError`, both caught by `_load_index`). -/
  | badJson
  /-- The file is valid JSON but not a JSON object, so `json.load` returns
  a non-dict and `loaded_urls.items()` raises `AttributeError`. -/
  | jsonNonDict
  /-- A JSON object, as an insertion-ordered dict. -/
  | jsonDict (entries : PyDict)
  deriving DecidableEq, Repr

/-- A task directory on disk: the index file plus the set of payload file
names present. -/
structure TaskDirFS where
  index : IndexFileState
  files : List String
  deriving DecidableEq, Repr

namespace CacheFileSys

/-- `CacheFileSys._remove_frag_and_slash`: drop the fragment via
`urldefrag`, percent-decode, strip one trailing slash (unless the string
has length 1 or ends in `://`). -/
def _remove_frag_and_slash (url : String) : Except PyErr String :=
  match urldefrag url with
  | .error e => .error e
  | .ok df => .ok (stripTrailingSlash (pyUnquote df.1))

/-- `CacheFileSys._get_url_hash`: MD5 hexdigest of the canonical form. -/
def _get_url_hash (url : String) : Except PyErr String :=
  match _remove_frag_and_slash url with
  | .error e => .error e
  | .ok n => .ok (md5Hex n)

/-- Adding to a Python `set`, modelled with first-insertion iteration
order (CPython's set iteration order is unspecified; theorems only rely on
membership). -/
def setAdd (l : List String) (x : String) : List String :=
  if l.contains x then l else l ++ [x]

/-- Fold a list of insertions into a set. -/
def setAddAll (l : List String) (xs : List String) : List String :=
  xs.foldl setAdd l

/-- The `swap_scheme` helper inside `_get_url_variants`. -/
def swap_scheme (u : String) : Option String :=
  if strStarts u "http://" then some ("https://" ++ strDropN u 7)
  else if strStarts u "https://" then some ("http://" ++ strDropN u 8)
  else none

/-- The slash adjustment applied to every encoding variant: drop a trailing
slash (same guard as `_remove_frag_and_slash`), or append one when the
variant has none. -/
def slashAdjust (v : String) : List String :=
  if strEnds v "/" && decide (v.data.length > 1) && !strEnds v "://" then
    [strDropLast v]
  else if !strEnds v "/" then [v ++ "/"]
  else []

/-- The eight quoting strategies plus the decoded form tried for each base
URL (`original`, `encoded_default`, `encoded_basic`, `encoded_common`,
`encoded_brackets`, `encoded_rfc`, `encoded_minimal`, `encoded_plus`,
`decoded_url`).  `quote`/`quote_plus`/`unquote` are total on strings, so
the `try/except` around this block never fires in the model. -/
def encodingVariants (b : String) : List String :=
  [b, pyQuote b "/", pyQuote b ":/?#", pyQuote b ":/?#@!$&'*+,;=",
    pyQuote b ":/?#[]@!$&'*+,;=", pyQuote b ":/?#[]@!$&'()*+,;=",
    pyQuote b ":/", pyQuotePlus b ":/?#[]@!$&'()*+,;=", pyUnquote b]

/-- The `base_urls` set of `_get_url_variants` (lines 75–101 of
`cache_filesys.py`): the set literal, the conditional slash/UTM suffixes,
the `www.`-stripped form, and the scheme swaps of everything so far. -/
def baseUrls (url url_no_frag r1 r2 : String) : List String :=
  let base0 := setAddAll [] [url, url_no_frag, r1, r2,
    url ++ "?utm_source=chatgpt.com", url_no_frag ++ "?utm_source=chatgpt.com",
    url ++ "?utm_source=openai.com", url_no_frag ++ "?utm_source=openai.com"]
  let base1 :=
    if !strEnds url "/" then setAdd base0 (url ++ "/?utm_source=chatgpt.com")
    else base0
  let base2 :=
    if !strEnds url_no_frag "/" then
      setAdd base1 (url_no_frag ++ "/?utm_source=chatgpt.com")
    else base1
  let base3 :=
    if !strEnds url "/" then setAdd base2 (url ++ "/?utm_source=openai.com")
    else base2
  let base4 :=
    if !strEnds url_no_frag "/" then
      setAdd base3 (url_no_frag ++ "/?utm_source=openai.com")
    else base3
  let base5 :=
    if strStarts url "http://www." then setAdd base4 ("http://" ++ strDropN url 11)
    else if strStarts url "https://www." then
      setAdd base4 ("https://" ++ strDropN url 12)
    else base4
  base5.foldl
    (fun acc u => match swap_scheme u with
      | some sw => setAdd acc sw
      | none => acc)
    base5

/-- The variants list built from the base set (lines 103–143): every
encoding strategy of every base together with its slash adjustments,
deduplicated preserving first occurrence. -/
def variantsOfBases (bases : List String) : List String :=
  setAddAll [] (bases.flatMap fun b =>
    (encodingVariants b).flatMap fun v => v :: slashAdjust v)

/-- `CacheFileSys._get_url_variants` (without the memo cache, which only
affects performance): build the base set, then the encoding variants of
every base. -/
def _get_url_variants (url : String) : Except PyErr (List String) :=
  match urldefrag url with
  | .error e => .error e
  | .ok df =>
  match remove_utm_parameters url with
  | .error e => .error e
  | .ok r1 =>
  match remove_utm_parameters df.1 with
  | .error e => .error e
  | .ok r2 =>
  .ok (variantsOfBases (baseUrls url df.1 r1 r2))

/-- `CacheFileSys._find_url`: direct key lookup; then a direct lookup of
the normalised URL; then a scan comparing each stored key's normalisation
with the input's (keys whose normalisation raises are skipped by the
`try/except`); then the first variant that is a stored key. -/
def _find_url (urls : PyDict) (url : String) : Except PyErr (Option String) :=
  if dictContains urls url then .ok (some url)
  else
    match normalize_url_simple url with
    | .error e => .error e
    | .ok normalized =>
      if dictContains urls normalized then .ok (some normalized)
      else
        match urls.find? (fun kv =>
            match normalize_url_simple kv.1 with
            | .ok n => n == normalized
            | .error _ => false) with
        | some kv => .ok (some kv.1)
        | none =>
          match _get_url_variants url with
          | .error e => .error e
          | .ok vars => .ok (vars.find? (dictContains urls))

/-- `CacheFileSys.has`: resolve the URL and return the stored kind (the
`self.urls[stored_url]` dict access raises `KeyError` if the resolved key
were absent). -/
def has (urls : PyDict) (url : String) : Except PyErr (Option String) :=
  match _find_url urls url with
  | .error e => .error e
  | .ok (some s) =>
    match dictGet? urls s with
    | some k => .ok (some k)
    | none => .error PyErr.keyError
  | .ok none => .ok none

/-- `CacheFileSys.put_web`: write `<hash>.txt`, convert and write
`<hash>.jpg`, then map the canonical key to `"web"` in the in-memory
index.  Returns the new index and the ordered event trace. -/
def put_web (urls : PyDict) (url text screenshot : String) :
    Except PyErr (PyDict × List StoreEvent) :=
  match _get_url_hash url with
  | .error e => .error e
  | .ok urlHash =>
    let ev1 := StoreEvent.payloadWrite (urlHash ++ ".txt") (.textContent text)
    let jpg := _convert_image_to_jpg screenshot
    let ev2 := StoreEvent.payloadWrite (urlHash ++ ".jpg") jpg
    match _remove_frag_and_slash url with
    | .error e => .error e
    | .ok key =>
      .ok (dictSet urls key "web", [ev1, ev2, .memIndexSet key "web"])

/-- `CacheFileSys.put_pdf`: write `<hash>.pdf`, then map the canonical key
to `"pdf"` in the in-memory index. -/
def put_pdf (urls : PyDict) (url pdfBytes : String) :
    Except PyErr (PyDict × List StoreEvent) :=
  match _get_url_hash url with
  | .error e => .error e
  | .ok urlHash =>
    let ev1 := StoreEvent.payloadWrite (urlHash ++ ".pdf") (.pdfContent pdfBytes)
    match _remove_frag_and_slash url with
    | .error e => .error e
    | .ok key => .ok (dictSet urls key "pdf", [ev1, .memIndexSet key "pdf"])

/-- `CacheFileSys.save`: serialize the in-memory index to `index.json`
(the only operation that writes the index file). -/
def save (urls : PyDict) : List StoreEvent := [.indexFileWrite urls]

/-- The per-entry file check of `_load_index`: a `"web"` entry needs both
`<hash>.txt` and `<hash>.jpg`, a `"pdf"` entry needs `<hash>.pdf`, and any
other kind passes unconditionally (the `if`/`elif` falls through with
`files_exist` still `True`). -/
def backingFilesExist (fs : TaskDirFS) (urlHash kind : String) : Bool :=
  if kind == "web" then
    fs.files.contains (urlHash ++ ".txt") && fs.files.contains (urlHash ++ ".jpg")
  else if kind == "pdf" then fs.files.contains (urlHash ++ ".pdf")
  else true

/-- The integrity-sweep loop of `_load_index` over the loaded entries, in
iteration order (`self.urls[url] = content_type` for every entry whose
backing files are present; a key whose hashing raises propagates). -/
def sweepEntries (fs : TaskDirFS) (acc : PyDict) : PyDict → Except PyErr PyDict
  | [] => .ok acc
  | p :: rest =>
    match _get_url_hash p.1 with
    | .error e => .error e
    | .ok urlHash =>
      sweepEntries fs
        (if backingFilesExist fs urlHash p.2 then dictSet acc p.1 p.2 else acc)
        rest

/-- `CacheFileSys._load_index`: a missing or JSON-undecodable index file
degrades to an empty dict (`IOError`/`json.JSONDecodeError` are caught); a
file that is valid JSON but not an object raises `AttributeError` at
`loaded_urls.items()`; otherwise the entries go through the integrity
sweep. -/
def _load_index (fs : TaskDirFS) : Except PyErr PyDict :=
  match fs.index with
  | .missing => sweepEntries fs [] []
  | .badJson => sweepEntries fs [] []
  | .jsonNonDict => .error PyErr.attributeError
  | .jsonDict entries => sweepEntries fs [] entries

end CacheFileSys

/-! ## `page_info_retrieval.py` — sentinel constants and `capture_page` -/

/-- `make_blank_png_b64()`: the base64 text of a 1×1 fully-transparent RGBA
PNG produced by the external PIL encoder.  The exact bytes depend on that
encoder; the model fixes a representative value — the code under
verification relies only on this being a fixed non-empty string. -/
def make_blank_png_b64 : String :=
  "iVBORw0KGgoAAAANSUhEUgAAAAEAAAABCAYAAAAfFcSJAAAADUlEQVR4nGNgYGBgAAAABQABh6FO1AAAAABJRU5ErkJggg=="

/-- `page_info_retrieval.ERROR_TEXT`. -/
def ERROR_TEXT : String :=
  "⚠️ This URL could not be loaded (navigation error)."

/-- The sentinel failure pair returned by `capture_page` when an attempt
budget is exhausted: `(make_blank_png_b64(), ERROR_TEXT)`. -/
def sentinelPair : String × String := (make_blank_png_b64, ERROR_TEXT)

/-- Outcome of one capture attempt (everything inside the per-attempt
`try`: context creation, navigation, scrolling, CDP capture).  A failure
records whether the raised error message matches the browser-crash
detection strings. -/
inductive AttemptOutcome where
  | success (shot text : String)
  | failure (crashIndicating : Bool)

/-- Oracle for the external browser automation: per-attempt outcomes, the
result of launching the browser (`start`), and the result of each
crash-triggered restart (`_restart_browser`), all of which may raise. -/
structure CaptureEnv where
  attempt : Nat → AttemptOutcome
  startBrowser : Except PyErr Unit
  restartBrowser : Nat → Except PyErr Unit

/-- The retry loop of `BatchBrowserManager.capture_page`: `i` is the
current attempt index, the second argument the number of loop iterations
left (`max_retries - i`).  A successful attempt returns its capture; a
failed attempt restarts the browser when the error message indicates a
crash (an exception from the restart propagates, as it is raised inside
the `except` handler), returns the sentinel when this was the last
attempt, and otherwise retries in a fresh context.  The `0` case is the
`return` after the `for` loop. -/
def capture_loop (env : CaptureEnv) (i : Nat) : Nat → Except PyErr (String × String)
  | 0 => .ok sentinelPair
  | r + 1 =>
    match env.attempt i with
    | .success shot text => .ok (shot, text)
    | .failure crash =>
      match (if crash then env.restartBrowser i else .ok ()) with
      | .error e => .error e
      | .ok _ =>
        if r == 0 then .ok sentinelPair
        else capture_loop env (i + 1) r

/-- `BatchBrowserManager.capture_page(url, logger, …)`: when the browser is
not yet running it is started first (outside the per-attempt `try`, so a
launch failure propagates), then the retry loop runs for `max_retries`
attempts. -/
def capture_page (env : CaptureEnv) (browserRunning : Bool) (max_retries : Nat) :
    Except PyErr (String × String) :=
  match (if !browserRunning then env.startBrowser else .ok ()) with
  | .error e => .error e
  | .ok _ => capture_loop env 0 max_retries

/-- Specification-side view of the retry budget: the first successful
attempt among attempts `i, i+1, …` within the given number of tries. -/
def firstSuccessFrom (env : CaptureEnv) (i : Nat) : Nat → Option (String × String)
  | 0 => none
  | r + 1 =>
    match env.attempt i with
    | .success shot text => some (shot, text)
    | .failure _ => firstSuccessFrom env (i + 1) r

/-! ## `batch_answer_cache.py` — `crawl_one_page` and the crawl loop -/

/-- External collaborators of `crawl_one_page`.

Modelled from the spec: `is_pdf` and `PDFParser._fetch_pdf_bytes` come from
`mind2web2.api_tools.tool_pdf`, which is not among the provided sources;
the specification declares them as the collaborator interface
`is_document_like(url) -> bool` / `fetch_bytes(url) -> bytes|absent`
(best-effort, may fail).  `capture` is the result of
`browser_manager.capture_page` for the URL. -/
structure CrawlOracle where
  is_pdf : String → Except PyErr Bool
  fetch_pdf_bytes : String → Except PyErr (Option String)
  capture : String → Except PyErr (String × String)

/-- Result of `crawl_one_page`: the cache state afterwards, the store
events performed, and how many capture operations / `put_web` / `put_pdf`
calls happened. -/
structure CrawlOutcome where
  cache : PyDict
  events : List StoreEvent
  captureCalls : Nat
  putWebCalls : Nat
  putPdfCalls : Nat
  deriving DecidableEq, Repr

/-- Python truthiness of the `kind | None` value returned by `has`, as
tested by `if cache.has(url):` — `None` and the empty string are falsy. -/
def truthyKind : Option String → Bool
  | some k => k != ""
  | none => false

/-- `crawl_one_page(url, cache, pdf_parser, browser_manager)`: skip when
the cache already has the URL (string truthiness: a `None` — or empty —
kind falls through); strip UTM parameters; on a PDF-sniffed URL
try a direct byte fetch and `put_pdf` (failures fall through); otherwise
capture the page and `put_web` when both returned components are non-empty
(Python truthiness on strings).  The enclosing `try/except` turns any
raise into a logged no-op. -/
def crawl_one_page (o : CrawlOracle) (st : PyDict) (url : String) : CrawlOutcome :=
  match CacheFileSys.has st url with
  | .error _ => ⟨st, [], 0, 0, 0⟩
  | .ok r =>
    if truthyKind r then ⟨st, [], 0, 0, 0⟩
    else
    match remove_utm_parameters url with
    | .error _ => ⟨st, [], 0, 0, 0⟩
    | .ok url1 =>
      match o.is_pdf url1 with
      | .error _ => ⟨st, [], 0, 0, 0⟩
      | .ok isPdfFlag =>
        let pdfDone : Option CrawlOutcome :=
          if isPdfFlag then
            match o.fetch_pdf_bytes url1 with
            | .ok (some buf) =>
              match CacheFileSys.put_pdf st url1 buf with
              | .ok (st', ev) => some ⟨st', ev, 0, 0, 1⟩
              | .error _ => none
            | _ => none
          else none
        match pdfDone with
        | some out => out
        | none =>
          match o.capture url1 with
          | .error _ => ⟨st, [], 1, 0, 0⟩
          | .ok (shot, text) =>
            if shot != "" && text != "" then
              match CacheFileSys.put_web st url1 text shot with
              | .ok (st', ev) => ⟨st', ev, 1, 1, 0⟩
              | .error _ => ⟨st, [], 1, 1, 0⟩
            else ⟨st, [], 1, 0, 0⟩

/-- The crawl step of `process_cache`: one `crawl_one_page` per unique URL
(concurrent in the source; modelled sequentially — the idempotence claim
concerns runs where every call is a read-only cache hit, for which
scheduling cannot matter).  Returns the final cache state and the total
number of capture operations. -/
def crawlAll (o : CrawlOracle) (st : PyDict) : List String → PyDict × Nat
  | [] => (st, 0)
  | u :: us =>
    let out := crawl_one_page o st u
    let rest := crawlAll o out.cache us
    (rest.1, out.captureCalls + rest.2)

/-! ## Specification-side definitions

Written from the wording of the specification and of the claims under
scrutiny, to be compared against the source-derived definitions above. -/

/-- The lookup order of spec §4.1 exactly as the claims state it:
(1) exact string match; (2) normalised-comparison match against every
stored key; (3) variant-list membership test; first hit wins.  (Unlike
`CacheFileSys._find_url`, this has no direct dict lookup of the normalised
URL between steps (1) and (2).) -/
def find_url_claimedOrder (urls : PyDict) (url : String) :
    Except PyErr (Option String) :=
  if dictContains urls url then .ok (some url)
  else
    match normalize_url_simple url with
    | .error e => .error e
    | .ok normalized =>
      match urls.find? (fun kv =>
          match normalize_url_simple kv.1 with
          | .ok n => n == normalized
          | .error _ => false) with
      | some kv => .ok (some kv.1)
      | none =>
        match CacheFileSys._get_url_variants url with
        | .error e => .error e
        | .ok vars => .ok (vars.find? (dictContains urls))

/-- `has` as claim C5 describes it: the kind stored under the key found by
the claimed three-step lookup order. -/
def has_claimedOrder (urls : PyDict) (url : String) :
    Except PyErr (Option String) :=
  match find_url_claimedOrder urls url with
  | .error e => .error e
  | .ok (some s) =>
    match dictGet? urls s with
    | some k => .ok (some k)
    | none => .error PyErr.keyError
  | .ok none => .ok none

/-- The resolution order amended to what the code performs: (1) exact
match; (1½) direct lookup of the normalised URL as a key; (2) normalised
scan; (3) variant membership. -/
def find_url_amendedOrder (urls : PyDict) (url : String) :
    Except PyErr (Option String) :=
  if dictContains urls url then .ok (some url)
  else
    match normalize_url_simple url with
    | .error e => .error e
    | .ok normalized =>
      if dictContains urls normalized then .ok (some normalized)
      else
        match urls.find? (fun kv =>
            match normalize_url_simple kv.1 with
            | .ok n => n == normalized
            | .error _ => false) with
        | some kv => .ok (some kv.1)
        | none =>
          match CacheFileSys._get_url_variants url with
          | .error e => .error e
          | .ok vars => .ok (vars.find? (dictContains urls))

/-- `has` under the amended four-step resolution order. -/
def has_amendedOrder (urls : PyDict) (url : String) :
    Except PyErr (Option String) :=
  match find_url_amendedOrder urls url with
  | .error e => .error e
  | .ok (some s) =>
    match dictGet? urls s with
    | some k => .ok (some k)
    | none => .error PyErr.keyError
  | .ok none => .ok none

/-- The canonical key as claim C8 words it: "the URL with its fragment
stripped, its percent-encoding decoded, and a single trailing slash
removed unless the path is just `/`".  Fragment stripping is read
literally (cut at the first `#`), and "the path is just `/`" is read as
"the decoded string is exactly `/`" — the reading closest to the code (the
URL-path-component reading would fail on every root URL such as
`https://a.com/`). -/
def canonicalKeySpec (url : String) : String :=
  let noFrag : List Char :=
    match splitOnceChar '#' url.data with
    | some (a, _) => a
    | none => url.data
  let d := pyUnquote ⟨noFrag⟩
  if strEnds d "/" && !(d == "/") then strDropLast d else d

/-- The canonical key as amended: fragment stripping goes through
`urldefrag` (which on fragment-bearing URLs also lower-cases the scheme,
drops empty `;`-params and removes tab/CR/LF, and can raise on a malformed
bracketed authority), then percent-decoding, then one trailing slash is
dropped unless the decoded string is exactly `/` or ends in `://`. -/
def canonicalKeyAmended (url : String) : Except PyErr String :=
  match urldefrag url with
  | .error e => .error e
  | .ok df =>
    let d := pyUnquote df.1
    .ok (if strEnds d "/" && !(d == "/") && !strEnds d "://" then strDropLast d
      else d)

/-- The integrity-filtered view of index entries that claim C3 describes:
keep exactly the entries whose backing payload files exist for their kind
(an entry whose canonicalization raises cannot be kept). -/
def entryBackingOk (fs : TaskDirFS) (p : String × String) : Bool :=
  match CacheFileSys._get_url_hash p.1 with
  | .ok h => CacheFileSys.backingFilesExist fs h p.2
  | .error _ => false

/-- `true` exactly when the computation returned rather than raised. -/
def exceptHasValue {α : Type} : Except PyErr α → Bool
  | .ok _ => true
  | .error _ => false

/-- Recognizes an index-file write in a store-event trace. -/
def isIndexFileWrite : StoreEvent → Bool
  | .indexFileWrite _ => true
  | _ => false

/-- The event trace claim C4 requires of `put_web`: text payload, then
screenshot payload, then the in-memory index update to kind `web`. -/
def webTrace (urlHash key text screenshot : String) : List StoreEvent :=
  [.payloadWrite (urlHash ++ ".txt") (.textContent text),
   .payloadWrite (urlHash ++ ".jpg") (_convert_image_to_jpg screenshot),
   .memIndexSet key "web"]

/-- The event trace claim C4 requires of `put_pdf`: the payload write,
then the in-memory index update to kind `pdf`. -/
def pdfTrace (urlHash key pdfBytes : String) : List StoreEvent :=
  [.payloadWrite (urlHash ++ ".pdf") (.pdfContent pdfBytes),
   .memIndexSet key "pdf"]

/-! ## Concrete instances used by counterexamples and witnesses -/

/-- A crawl environment whose page capture always "fails softly": the
browser layer returns the sentinel pair (as `capture_page` does when the
attempt budget is exhausted), and the URL is not PDF-sniffed. -/
def sentinelCaptureOracle : CrawlOracle :=
  ⟨fun _ => .ok false, fun _ => .ok none, fun _ => .ok sentinelPair⟩

/-- A crawl environment whose capture succeeds with fixed non-empty
content. -/
def successCaptureOracle : CrawlOracle :=
  ⟨fun _ => .ok false, fun _ => .ok none, fun _ => .ok ("SHOT", "TEXT")⟩

/-- A browser environment in which every attempt fails with an error
message matching the crash-detection strings, and relaunching the browser
itself raises (as `playwright.chromium.launch` can). -/
def crashRestartEnv : CaptureEnv :=
  ⟨fun _ => .failure true, .ok (), fun _ => .error .otherError⟩

/-- A browser environment whose first attempt fails (non-crash) and whose
second attempt succeeds; restarts never raise. -/
def retryThenSuccessEnv : CaptureEnv :=
  ⟨fun i => if i == 0 then .failure false else .success "SHOT" "TEXT",
    .ok (), fun _ => .ok ()⟩

/-- A store state reachable by `_load_index` from an `index.json` with the
two keys below (and their payload files present): the first key is the
normalised form of the second key's normalised form, with conflicting
kinds.  Exposes the direct normalised-key lookup step of `_find_url`. -/
def c5Store : PyDict :=
  [("https://a.com/%2520x", "pdf"), ("https://a.com/%252520x", "web")]

/-- A store populated by `put_web` on one scheme variant and `put_pdf` on
the other (see `C6_counterexample`). -/
def c6Store : PyDict :=
  [("https://a.com/x", "web"), ("http://a.com/x", "pdf")]

/-- An on-disk index content for the `C3` witness: a `web` entry whose two
payload files are present and a `pdf` entry whose payload file is
missing. -/
def c3Entries : PyDict :=
  [("https://a.com/x", "web"), ("https://A.com/x", "pdf")]

/-- The payload files on disk next to `c3Entries`: both backing files of
the `web` entry (`1c6291…` is the MD5 of `https://a.com/x`), nothing for
the `pdf` entry. -/
def c3Files : List String :=
  ["1c629182247750d8f4da5543e94dd8f8.txt",
   "1c629182247750d8f4da5543e94dd8f8.jpg"]

/-! ## Dictionary lemmas -/

theorem dictContains_iff {d : PyDict} {k : String} :
    dictContains d k = true ↔ ∃ p, p ∈ d ∧ p.1 = k := by
  simp [dictContains, List.any_eq_true]

theorem dictGet?_of_contains {d : PyDict} {k : String}
    (h : dictContains d k = true) : ∃ v, dictGet? d k = some v := by
  rcases dictContains_iff.mp h with ⟨p, hp, hk⟩
  have : d.find? (·.1 == k) |>.isSome := by
    rw [List.find?_isSome]
    exact ⟨p, hp, by simp [hk]⟩
  rcases Option.isSome_iff_exists.mp this with ⟨q, hq⟩
  exact ⟨q.2, by simp [dictGet?, hq]⟩

theorem dictGet?_mem {d : PyDict} {k v : String} (h : dictGet? d k = some v) :
    ∃ p, p ∈ d ∧ p.1 = k ∧ p.2 = v := by
  simp only [dictGet?, Option.map_eq_some'] at h
  rcases h with ⟨p, hfind, hv⟩
  refine ⟨p, List.mem_of_find?_eq_some hfind, ?_, hv⟩
  have := List.find?_some hfind
  simpa using this

theorem dictGet?_uniform {d : PyDict} {k v kind : String}
    (huni : ∀ p ∈ d, p.2 = kind) (h : dictGet? d k = some v) : v = kind := by
  rcases dictGet?_mem h with ⟨p, hp, _, hv⟩
  exact hv ▸ huni p hp

/-! ## Error-classification lemmas

The only exception the `urllib.parse` layer can raise in the model is the
"Invalid IPv6 URL" `ValueError`; these lemmas propagate that fact up the
call chain (used to show `has` can never raise `KeyError`). -/

theorem urlsplit_error_eq {u : String} {e : PyErr}
    (h : urlsplit u = .error e) : e = .valueError := by
  simp only [urlsplit] at h
  split at h
  · cases h; rfl
  · simp at h

theorem urlparse_error_eq {u : String} {e : PyErr}
    (h : urlparse u = .error e) : e = .valueError := by
  unfold urlparse at h
  cases hs : urlsplit u with
  | error e' =>
    rw [hs] at h; try dsimp only at h
    try dsimp only at h
    cases h
    exact urlsplit_error_eq hs
  | ok sr =>
    rw [hs] at h; try dsimp only at h
    try dsimp only at h
    split at h <;> simp at h

theorem urldefrag_error_eq {u : String} {e : PyErr}
    (h : urldefrag u = .error e) : e = .valueError := by
  unfold urldefrag at h
  split at h
  · cases hp : urlparse u with
    | error e' =>
      rw [hp] at h; try dsimp only at h
      try dsimp only at h
      cases h
      exact urlparse_error_eq hp
    | ok p => rw [hp] at h; try dsimp only at h; simp at h
  · simp at h

theorem remove_utm_error_eq {u : String} {e : PyErr}
    (h : remove_utm_parameters u = .error e) : e = .valueError := by
  unfold remove_utm_parameters at h
  cases hp : urlparse u with
  | error e' =>
    rw [hp] at h; try dsimp only at h
    try dsimp only at h
    cases h
    exact urlparse_error_eq hp
  | ok p =>
    rw [hp] at h; try dsimp only at h
    try dsimp only at h
    split at h <;> simp at h

theorem normalize_error_eq {u : String} {e : PyErr}
    (h : normalize_url_simple u = .error e) : e = .valueError := by
  unfold normalize_url_simple at h
  cases h1 : remove_utm_parameters u with
  | error e' =>
    rw [h1] at h; try dsimp only at h; cases h; exact remove_utm_error_eq h1
  | ok u1 =>
    rw [h1] at h; try dsimp only at h
    cases h2 : urldefrag u1 with
    | error e' =>
      rw [h2] at h; try dsimp only at h; cases h; exact urldefrag_error_eq h2
    | ok df =>
      rw [h2] at h; try dsimp only at h
      cases h3 : urlparse (stripTrailingSlash (pyUnquote df.1)) with
      | error e' =>
        rw [h3] at h; try dsimp only at h; cases h; exact urlparse_error_eq h3
      | ok p => rw [h3] at h; try dsimp only at h; simp at h

theorem rfs_error_eq {u : String} {e : PyErr}
    (h : CacheFileSys._remove_frag_and_slash u = .error e) : e = .valueError := by
  unfold CacheFileSys._remove_frag_and_slash at h
  cases hd : urldefrag u with
  | error e' => rw [hd] at h; try dsimp only at h; cases h; exact urldefrag_error_eq hd
  | ok df => rw [hd] at h; try dsimp only at h; simp at h

theorem hash_error_eq {u : String} {e : PyErr}
    (h : CacheFileSys._get_url_hash u = .error e) : e = .valueError := by
  unfold CacheFileSys._get_url_hash at h
  cases hr : CacheFileSys._remove_frag_and_slash u with
  | error e' => rw [hr] at h; try dsimp only at h; cases h; exact rfs_error_eq hr
  | ok n => rw [hr] at h; try dsimp only at h; simp at h

theorem variants_error_eq {u : String} {e : PyErr}
    (h : CacheFileSys._get_url_variants u = .error e) : e = .valueError := by
  unfold CacheFileSys._get_url_variants at h
  cases hd : urldefrag u with
  | error e' => rw [hd] at h; try dsimp only at h; cases h; exact urldefrag_error_eq hd
  | ok df =>
    rw [hd] at h; try dsimp only at h
    cases h1 : remove_utm_parameters u with
    | error e' => rw [h1] at h; try dsimp only at h; cases h; exact remove_utm_error_eq h1
    | ok r1 =>
      rw [h1] at h; try dsimp only at h
      cases h2 : remove_utm_parameters df.1 with
      | error e' => rw [h2] at h; try dsimp only at h; cases h; exact remove_utm_error_eq h2
      | ok r2 => rw [h2] at h; try dsimp only at h; simp at h

theorem find_url_error_eq {urls : PyDict} {u : String} {e : PyErr}
    (h : CacheFileSys._find_url urls u = .error e) : e = .valueError := by
  unfold CacheFileSys._find_url at h
  split at h
  · simp at h
  · cases hn : normalize_url_simple u with
    | error e' => rw [hn] at h; try dsimp only at h; cases h; exact normalize_error_eq hn
    | ok n =>
      rw [hn] at h; try dsimp only at h
      split at h
      · simp at h
      · split at h
        · simp at h
        · cases hv : CacheFileSys._get_url_variants u with
          | error e' => rw [hv] at h; try dsimp only at h; cases h; exact variants_error_eq hv
          | ok vs => rw [hv] at h; try dsimp only at h; simp at h

/-- `_find_url` only ever returns keys of the dict. -/
theorem find_url_mem {urls : PyDict} {url s : String}
    (h : CacheFileSys._find_url urls url = .ok (some s)) :
    dictContains urls s = true := by
  unfold CacheFileSys._find_url at h
  split at h
  · next hc =>
    simp only [Except.ok.injEq, Option.some.injEq] at h
    exact h ▸ hc
  · cases hn : normalize_url_simple url with
    | error e' => rw [hn] at h; try dsimp only at h; cases h
    | ok n =>
      rw [hn] at h; try dsimp only at h
      split at h
      · next hc =>
        simp only [Except.ok.injEq, Option.some.injEq] at h
        exact h ▸ hc
      · split at h
        · next kv hkv =>
          simp only [Except.ok.injEq, Option.some.injEq] at h
          have hmem := List.mem_of_find?_eq_some hkv
          exact dictContains_iff.mpr ⟨kv, hmem, h⟩
        · cases hv : CacheFileSys._get_url_variants url with
          | error e' => rw [hv] at h; try dsimp only at h; cases h
          | ok vs =>
            rw [hv] at h; try dsimp only at h
            simp only [Except.ok.injEq] at h
            exact List.find?_some h

/-! ## Membership lemmas for the variant construction -/

theorem mem_setAdd_self (l : List String) (x : String) :
    x ∈ CacheFileSys.setAdd l x := by
  unfold CacheFileSys.setAdd
  split
  · next hc => simpa using hc
  · simp

theorem mem_setAdd_of_mem {l : List String} {x : String} (y : String)
    (h : x ∈ l) : x ∈ CacheFileSys.setAdd l y := by
  unfold CacheFileSys.setAdd
  split
  · exact h
  · exact List.mem_append_left _ h

theorem mem_setAddAll_of_mem_left {x : String} :
    ∀ (xs l : List String), x ∈ l → x ∈ CacheFileSys.setAddAll l xs
  | [], _, h => h
  | a :: as, l, h => by
    simpa only [CacheFileSys.setAddAll, List.foldl_cons] using
      mem_setAddAll_of_mem_left as _ (mem_setAdd_of_mem a h)

theorem mem_setAddAll_of_mem_right {x : String} :
    ∀ (xs l : List String), x ∈ xs → x ∈ CacheFileSys.setAddAll l xs
  | [], _, h => absurd h (List.not_mem_nil x)
  | a :: as, l, h => by
    simp only [CacheFileSys.setAddAll, List.foldl_cons]
    rcases List.mem_cons.mp h with rfl | h'
    · exact mem_setAddAll_of_mem_left as _ (mem_setAdd_self l x)
    · exact mem_setAddAll_of_mem_right as _ h'

theorem mem_foldl_swap {x : String} :
    ∀ (l acc : List String), x ∈ acc →
      x ∈ l.foldl (fun acc u =>
        match CacheFileSys.swap_scheme u with
        | some sw => CacheFileSys.setAdd acc sw
        | none => acc) acc
  | [], _, h => h
  | u :: us, acc, h => by
    simp only [List.foldl_cons]
    apply mem_foldl_swap us
    cases CacheFileSys.swap_scheme u with
    | some sw => exact mem_setAdd_of_mem sw h
    | none => exact h

theorem mem_ite_setAdd {P : Prop} [Decidable P] {l : List String} {x : String}
    (y : String) (h : x ∈ l) :
    x ∈ (if P then CacheFileSys.setAdd l y else l) := by
  split
  · exact mem_setAdd_of_mem y h
  · exact h

theorem mem_ite2_setAdd {P Q : Prop} [Decidable P] [Decidable Q]
    {l : List String} {x : String} (y z : String) (h : x ∈ l) :
    x ∈ (if P then CacheFileSys.setAdd l y
      else if Q then CacheFileSys.setAdd l z else l) := by
  split
  · exact mem_setAdd_of_mem y h
  · exact mem_ite_setAdd z h

theorem mem_baseUrls_no_frag (url url_no_frag r1 r2 : String) :
    url_no_frag ∈ CacheFileSys.baseUrls url url_no_frag r1 r2 := by
  unfold CacheFileSys.baseUrls
  apply mem_foldl_swap
  apply mem_ite2_setAdd
  apply mem_ite_setAdd
  apply mem_ite_setAdd
  apply mem_ite_setAdd
  apply mem_ite_setAdd
  exact mem_setAddAll_of_mem_right _ _ (by simp)

theorem unquote_mem_encodingVariants (b : String) :
    pyUnquote b ∈ CacheFileSys.encodingVariants b := by
  simp [CacheFileSys.encodingVariants]

theorem stripSlash_mem_slashAdjust (v : String) :
    stripTrailingSlash v ∈ v :: CacheFileSys.slashAdjust v := by
  unfold stripTrailingSlash CacheFileSys.slashAdjust
  split <;> simp_all

/-- The canonical storage key is always among the enumerated variants
(via `decoded_url` of the defragmented base URL plus the slash
adjustment). -/
theorem canonical_mem_variants {url c : String} {vs : List String}
    (hc : CacheFileSys._remove_frag_and_slash url = .ok c)
    (hv : CacheFileSys._get_url_variants url = .ok vs) : c ∈ vs := by
  unfold CacheFileSys._remove_frag_and_slash at hc
  unfold CacheFileSys._get_url_variants at hv
  cases hd : urldefrag url with
  | error e => rw [hd] at hc; cases hc
  | ok df =>
    rw [hd] at hc hv
    dsimp only at hc hv
    injection hc with hc
    subst hc
    cases h1 : remove_utm_parameters url with
    | error e => rw [h1] at hv; cases hv
    | ok r1 =>
      rw [h1] at hv; dsimp only at hv
      cases h2 : remove_utm_parameters df.1 with
      | error e => rw [h2] at hv; cases hv
      | ok r2 =>
        rw [h2] at hv; dsimp only at hv
        injection hv with hv
        subst hv
        unfold CacheFileSys.variantsOfBases
        apply mem_setAddAll_of_mem_right
        rw [List.mem_flatMap]
        refine ⟨df.1, mem_baseUrls_no_frag url df.1 r1 r2, ?_⟩
        rw [List.mem_flatMap]
        exact ⟨pyUnquote df.1, unquote_mem_encodingVariants df.1,
          stripSlash_mem_slashAdjust (pyUnquote df.1)⟩

/-! ## Retry-loop lemma -/

/-- When the browser never has to be relaunched mid-loop (restarts
succeed), the retry loop returns the first successful attempt within the
budget, and the sentinel when there is none. -/
theorem capture_loop_ok (env : CaptureEnv)
    (hres : ∀ i, env.restartBrowser i = .ok ()) :
    ∀ (fuel i : Nat),
      capture_loop env i fuel =
        .ok (match firstSuccessFrom env i fuel with
          | some p => p
          | none => sentinelPair) := by
  intro fuel
  induction fuel with
  | zero => intro i; rfl
  | succ f ih =>
    intro i
    unfold capture_loop firstSuccessFrom
    cases ha : env.attempt i with
    | success s t => rfl
    | failure crash =>
      dsimp only
      have hok : (if crash then env.restartBrowser i else .ok ()) = .ok () := by
        cases crash <;> simp [hres]
      rw [hok]
      dsimp only
      by_cases hf : f = 0
      · subst hf
        simp [firstSuccessFrom]
      · have hf' : (f == 0) = false := by simpa using hf
        rw [hf', ih (i + 1)]
        rfl

/-! ## Dict-append and sweep lemmas -/

theorem dictSet_append {d : PyDict} {k : String} (v : String)
    (h : dictContains d k = false) : dictSet d k v = d ++ [(k, v)] := by
  unfold dictSet
  rw [h]
  rfl

theorem dictContains_append_single {d : PyDict} {p : String × String}
    {k : String} :
    dictContains (d ++ [p]) k = (dictContains d k || (p.1 == k)) := by
  simp [dictContains, List.any_append]

/-- The integrity sweep accumulates exactly the entries whose backing
files exist, in order, provided every key hashes successfully, no entry
key is already in the accumulator, and the entry keys are distinct. -/
theorem sweep_ok (fs : TaskDirFS) :
    ∀ (entries acc : PyDict),
      (∀ p ∈ entries, ∃ h, CacheFileSys._get_url_hash p.1 = .ok h) →
      (∀ p ∈ entries, dictContains acc p.1 = false) →
      ((entries.map Prod.fst).Nodup) →
      CacheFileSys.sweepEntries fs acc entries =
        .ok (acc ++ entries.filter (entryBackingOk fs))
  | [], acc, _, _, _ => by simp [CacheFileSys.sweepEntries]
  | p :: rest, acc, hh, hdisj, hnodup => by
    obtain ⟨h, hp⟩ := hh p (List.mem_cons_self p rest)
    have hnd : p.1 ∉ rest.map Prod.fst ∧ (rest.map Prod.fst).Nodup := by
      rw [List.map_cons, List.nodup_cons] at hnodup
      exact hnodup
    have hbeq : entryBackingOk fs p = CacheFileSys.backingFilesExist fs h p.2 := by
      unfold entryBackingOk
      rw [hp]
    unfold CacheFileSys.sweepEntries
    rw [hp]
    dsimp only
    have hdisj' : ∀ q ∈ rest, dictContains (acc ++ [p]) q.1 = false := by
      intro q hq
      rw [dictContains_append_single]
      have h1 := hdisj q (List.mem_cons_of_mem p hq)
      have h2 : (p.1 == q.1) = false := by
        have : p.1 ≠ q.1 := by
          intro hcontra
          exact hnd.1 (hcontra ▸ List.mem_map_of_mem Prod.fst hq)
        simpa using this
      rw [h1, h2]
      rfl
    by_cases hb : CacheFileSys.backingFilesExist fs h p.2 = true
    · rw [if_pos hb, dictSet_append p.2 (hdisj p (List.mem_cons_self p rest))]
      rw [sweep_ok fs rest (acc ++ [p])
        (fun q hq => hh q (List.mem_cons_of_mem p hq)) hdisj' hnd.2]
      rw [List.filter_cons_of_pos (by rw [hbeq]; exact hb)]
      simp
    · have hb' : CacheFileSys.backingFilesExist fs h p.2 = false :=
        Bool.eq_false_iff.mpr hb
      rw [if_neg (by simp [hb'])]
      rw [sweep_ok fs rest acc
        (fun q hq => hh q (List.mem_cons_of_mem p hq))
        (fun q hq => hdisj q (List.mem_cons_of_mem p hq)) hnd.2]
      rw [List.filter_cons_of_neg (by rw [hbeq]; simp [hb'])]

/-! ## Trailing-slash and singleton-store lemmas -/

/-- On a string that ends in `/`, "length greater than one" is the same
test as "not the one-character string `/`". -/
theorem stripTrailingSlash_eq_amended (d : String) :
    stripTrailingSlash d =
      (if strEnds d "/" && !(d == "/") && !strEnds d "://" then strDropLast d
        else d) := by
  unfold stripTrailingSlash
  have hcond : (strEnds d "/" && decide (d.data.length > 1) && !strEnds d "://")
      = (strEnds d "/" && !(d == "/") && !strEnds d "://") := by
    cases hE : strEnds d "/"
    · rfl
    · have hL : decide (d.data.length > 1) = !(d == "/") := by
        unfold strEnds at hE
        cases hr : d.data.reverse with
        | nil => rw [hr] at hE; simp [isPre] at hE
        | cons c t =>
          rw [hr] at hE
          have hc : c = '/' := by
            have : ('/' == c && isPre [] t) = true := by
              simpa [isPre] using hE
            have := (Bool.and_eq_true _ _ |>.mp this).1
            exact (beq_iff_eq.mp this).symm
          subst hc
          have hlen : d.data.length = t.length + 1 := by
            have := congrArg List.length hr
            simpa using this
          cases t with
          | nil =>
            have hd : d = "/" := by
              apply String.ext
              have h1 := congrArg List.reverse hr
              simpa using h1
            subst hd
            simp
          | cons c2 t2 =>
            have hgt : d.data.length > 1 := by rw [hlen]; simp
            have hne : d ≠ "/" := by
              intro hcontra
              rw [hcontra] at hlen
              simp at hlen
            have h1 : decide (d.data.length > 1) = true := decide_eq_true hgt
            have hbe : (d == "/") = false := by simpa using hne
            rw [h1, hbe]; rfl
      rw [hL]
  rw [hcond]

/-- On a one-entry store whose key is the canonical form of `u`, the
lookup resolves `u` to that key (via whichever of the four steps hits
first — the variant step always can, by `canonical_mem_variants`). -/
theorem find_url_singleton {u c kind n : String} {vs : List String}
    (hc : CacheFileSys._remove_frag_and_slash u = .ok c)
    (hn : normalize_url_simple u = .ok n)
    (hv : CacheFileSys._get_url_variants u = .ok vs) :
    CacheFileSys._find_url [(c, kind)] u = .ok (some c) := by
  have hmem := canonical_mem_variants hc hv
  unfold CacheFileSys._find_url
  by_cases h1 : dictContains [(c, kind)] u = true
  · have hu : c = u := by simpa [dictContains] using h1
    rw [if_pos h1, hu]
  · rw [if_neg h1, hn]
    dsimp only
    by_cases h2 : dictContains [(c, kind)] n = true
    · have hn2 : c = n := by simpa [dictContains] using h2
      rw [if_pos h2, hn2]
    · rw [if_neg h2]
      cases hscan : [(c, kind)].find? (fun kv =>
          match normalize_url_simple kv.1 with
          | .ok n' => n' == n
          | .error _ => false) with
      | some kv =>
        have hkvmem := List.mem_of_find?_eq_some hscan
        have : kv = (c, kind) := by simpa using hkvmem
        rw [this]
      | none =>
        rw [hv]
        dsimp only
        have hpred : dictContains [(c, kind)] c = true := by simp [dictContains]
        have hsome : (vs.find? (dictContains [(c, kind)])).isSome := by
          rw [List.find?_isSome]
          exact ⟨c, hmem, hpred⟩
        rcases Option.isSome_iff_exists.mp hsome with ⟨x, hx⟩
        have hxc : c = x := by simpa [dictContains] using List.find?_some hx
        rw [hx, ← hxc]

/-- `has` right after a `put` into the empty store reports the put kind. -/
theorem has_singleton {u c kind n : String} {vs : List String}
    (hc : CacheFileSys._remove_frag_and_slash u = .ok c)
    (hn : normalize_url_simple u = .ok n)
    (hv : CacheFileSys._get_url_variants u = .ok vs) :
    CacheFileSys.has [(c, kind)] u = .ok (some kind) := by
  unfold CacheFileSys.has
  rw [find_url_singleton hc hn hv]
  simp [dictGet?]

/-! ## Crawl-skip helper lemmas -/

/-- A URL the store reports with a truthy (non-empty) kind makes
`crawl_one_page` a no-op. -/
theorem crawl_one_page_cached (o : CrawlOracle) (st : PyDict) (url kind : String)
    (hk : kind ≠ "") (h : CacheFileSys.has st url = .ok (some kind)) :
    crawl_one_page o st url = ⟨st, [], 0, 0, 0⟩ := by
  unfold crawl_one_page
  rw [h]
  have ht : truthyKind (some kind) = true := by simp [truthyKind, hk]
  dsimp only
  rw [if_pos ht]

/-- A crawl over URLs the store already reports cached leaves the state
unchanged and performs zero captures. -/
theorem crawlAll_cached (o : CrawlOracle) (st : PyDict) :
    ∀ urls : List String,
      (∀ u ∈ urls, ∃ k, k ≠ "" ∧ CacheFileSys.has st u = .ok (some k)) →
      crawlAll o st urls = (st, 0)
  | [], _ => rfl
  | u :: us, hall => by
    obtain ⟨k, hk, hhas⟩ := hall u (List.mem_cons_self u us)
    unfold crawlAll
    rw [crawl_one_page_cached o st u k hk hhas]
    dsimp only
    rw [crawlAll_cached o st us (fun v hv => hall v (List.mem_cons_of_mem u hv))]
    simp

/-- `_remove_frag_and_slash` agrees everywhere with the amended spec-side
canonicalization `canonicalKeyAmended`. -/
theorem rfs_eq_canonicalKeyAmended (u : String) :
    CacheFileSys._remove_frag_and_slash u = canonicalKeyAmended u := by
  unfold CacheFileSys._remove_frag_and_slash canonicalKeyAmended
  cases hd : urldefrag u with
  | error e => rfl
  | ok df =>
    dsimp only
    rw [stripTrailingSlash_eq_amended]

/-! ## Claim C1 -/

/-- C1 counterexample: the sentinel failure pair returned by
`capture_page` has both components non-empty, so the `if shot and text`
guard of `crawl_one_page` accepts it and `put_web` **does** run — the
sentinel page is written to the store.  Here the capture layer returns
the sentinel for `https://a.com/x` over the empty store, and the crawl
performs one `put_web` and mutates the store. -/
theorem C1_counterexample :
    sentinelCaptureOracle.capture "https://a.com/x" = .ok sentinelPair ∧
    (crawl_one_page sentinelCaptureOracle [] "https://a.com/x").putWebCalls = 1 ∧
    (crawl_one_page sentinelCaptureOracle [] "https://a.com/x").cache =
      [("https://a.com/x", "web")] ∧
    [("https://a.com/x", "web")] ≠ ([] : PyDict) :=
  ⟨rfl, rfl, rfl, by decide⟩

/-- C1 (amended): after the skip, UTM-strip and PDF pre-steps, the only
write guard of `crawl_one_page` is string non-emptiness of the captured
pair — `put_web` runs exactly when both components are non-empty, with no
sentinel check (the sentinel pair, being non-empty, is therefore written;
see the counterexample).  When a component is empty, no store event
happens. -/
theorem C1_amended (o : CrawlOracle) (st st' : PyDict) (url url1 shot text : String)
    (ev : List StoreEvent)
    (hhas : CacheFileSys.has st url = .ok none)
    (hutm : remove_utm_parameters url = .ok url1)
    (hpdf : o.is_pdf url1 = .ok false)
    (hcap : o.capture url1 = .ok (shot, text))
    (hput : CacheFileSys.put_web st url1 text shot = .ok (st', ev)) :
    (shot ≠ "" ∧ text ≠ "" → crawl_one_page o st url = ⟨st', ev, 1, 1, 0⟩) ∧
    ((shot = "" ∨ text = "") → crawl_one_page o st url = ⟨st, [], 1, 0, 0⟩) := by
  have hrest : ∀ out : CrawlOutcome,
      (if shot != "" && text != "" then
        match CacheFileSys.put_web st url1 text shot with
        | .ok (st', ev) => (⟨st', ev, 1, 1, 0⟩ : CrawlOutcome)
        | .error _ => ⟨st, [], 1, 1, 0⟩
       else ⟨st, [], 1, 0, 0⟩) = out →
      crawl_one_page o st url = out := by
    intro out hout
    unfold crawl_one_page
    rw [hhas]
    dsimp only [truthyKind]
    rw [hutm]
    dsimp only
    rw [hpdf]
    dsimp only
    rw [hcap]
    dsimp only
    exact hout
  constructor
  · intro hne
    apply hrest
    have hg : (shot != "" && text != "") = true := by
      simp [hne.1, hne.2]
    rw [if_pos hg]
    rw [hput]
  · intro hor
    apply hrest
    have hg : ¬((shot != "" && text != "") = true) := by
      rcases hor with h | h <;> simp [h]
    rw [if_neg hg]

/-- C1 amended-claim witness: the sentinel capture run over the empty
store, hypotheses and guard discharged concretely — the sentinel page
lands in the store as kind `web`. -/
theorem C1_amended_witness :
    crawl_one_page sentinelCaptureOracle [] "https://a.com/x" =
      ⟨[("https://a.com/x", "web")],
        [StoreEvent.payloadWrite "1c629182247750d8f4da5543e94dd8f8.txt"
            (FileContent.textContent ERROR_TEXT),
         StoreEvent.payloadWrite "1c629182247750d8f4da5543e94dd8f8.jpg"
            (FileContent.jpegContent make_blank_png_b64),
         StoreEvent.memIndexSet "https://a.com/x" "web"], 1, 1, 0⟩ :=
  (C1_amended sentinelCaptureOracle [] [("https://a.com/x", "web")]
      "https://a.com/x" "https://a.com/x" make_blank_png_b64 ERROR_TEXT
      [StoreEvent.payloadWrite "1c629182247750d8f4da5543e94dd8f8.txt"
          (FileContent.textContent ERROR_TEXT),
       StoreEvent.payloadWrite "1c629182247750d8f4da5543e94dd8f8.jpg"
          (FileContent.jpegContent make_blank_png_b64),
       StoreEvent.memIndexSet "https://a.com/x" "web"]
      rfl rfl rfl rfl rfl).1 ⟨by decide, by decide⟩

/-! ## Claim C2 -/

/-- C2 counterexample: `capture_page` **can** raise.  When an attempt
fails with an error message matching the crash-detection strings and
relaunching the browser itself raises, the relaunch exception propagates
(it is raised inside the `except` handler), here with a 2-attempt
budget. -/
theorem C2_counterexample :
    capture_page crashRestartEnv true 2 = .error PyErr.otherError := rfl

/-- C2 (amended): provided launching and relaunching the browser never
raise, `capture_page` never raises — it returns the first successful
attempt within the `max_retries` budget, and the fixed sentinel pair when
every attempt fails. -/
theorem C2_amended (env : CaptureEnv) (browserRunning : Bool) (max_retries : Nat)
    (hstart : env.startBrowser = .ok ())
    (hres : ∀ i, env.restartBrowser i = .ok ()) :
    capture_page env browserRunning max_retries =
      .ok (match firstSuccessFrom env 0 max_retries with
        | some p => p
        | none => sentinelPair) := by
  unfold capture_page
  have h0 : (if !browserRunning then env.startBrowser else .ok ()) = .ok () := by
    cases browserRunning <;> simp [hstart]
  rw [h0]
  exact capture_loop_ok env hres max_retries 0

/-- C2 amended-claim witness: one failed (non-crash) attempt, then a
success, inside a budget of 2. -/
theorem C2_amended_witness :
    capture_page retryThenSuccessEnv true 2 = .ok ("SHOT", "TEXT") :=
  C2_amended retryThenSuccessEnv true 2 rfl (fun _ => rfl)

/-! ## Claim C3 -/

/-- C3 counterexample: construction does **not** always degrade a bad
index file to an empty index — an `index.json` that is valid JSON but not
an object raises `AttributeError` at `loaded_urls.items()` (only
`IOError` and `json.JSONDecodeError` are caught), and an index entry
whose key makes canonicalization raise (an unbalanced bracket together
with a fragment) propagates `ValueError` instead of being dropped
silently. -/
theorem C3_counterexample :
    CacheFileSys._load_index ⟨IndexFileState.jsonNonDict, []⟩ =
      .error PyErr.attributeError ∧
    CacheFileSys._load_index
        ⟨IndexFileState.jsonDict [("http://[#f", "web")], []⟩ =
      .error PyErr.valueError :=
  ⟨rfl, rfl⟩

/-- C3 (amended): a missing or JSON-undecodable index file loads as the
empty index, and a JSON-object index file loads as exactly those of its
entries whose backing payload files are present for their kind, in
order — provided every key canonicalizes without raising and the keys are
distinct (keys of a JSON object always are). -/
theorem C3_amended (files : List String) (entries : PyDict)
    (hh : ∀ p ∈ entries, ∃ h, CacheFileSys._get_url_hash p.1 = .ok h)
    (hnodup : (entries.map Prod.fst).Nodup) :
    CacheFileSys._load_index ⟨IndexFileState.missing, files⟩ = .ok [] ∧
    CacheFileSys._load_index ⟨IndexFileState.badJson, files⟩ = .ok [] ∧
    CacheFileSys._load_index ⟨IndexFileState.jsonDict entries, files⟩ =
      .ok (entries.filter
        (entryBackingOk ⟨IndexFileState.jsonDict entries, files⟩)) := by
  refine ⟨rfl, rfl, ?_⟩
  show CacheFileSys.sweepEntries _ [] entries = _
  rw [sweep_ok _ entries [] hh (fun p _ => rfl) hnodup]
  simp

/-- C3 amended-claim witness: over `c3Files`, the `web` entry of
`c3Entries` (both payload files present) survives the load and the `pdf`
entry (payload missing) is dropped silently; the missing and
undecodable index states load empty. -/
theorem C3_amended_witness :
    CacheFileSys._load_index ⟨IndexFileState.missing, c3Files⟩ = .ok [] ∧
    CacheFileSys._load_index ⟨IndexFileState.badJson, c3Files⟩ = .ok [] ∧
    CacheFileSys._load_index ⟨IndexFileState.jsonDict c3Entries, c3Files⟩ =
      .ok [("https://a.com/x", "web")] :=
  C3_amended c3Files c3Entries
    (by
      intro p hp
      simp only [c3Entries, List.mem_cons, List.not_mem_nil, or_false] at hp
      rcases hp with rfl | rfl
      · exact ⟨_, rfl⟩
      · exact ⟨_, rfl⟩)
    (by decide)

/-! ## Claim C4 -/

/-- C4: `put_web` emits the text-payload write, then the screenshot
write, then the in-memory index update mapping the canonical key to
`web`; `put_pdf` likewise writes its payload before the index update;
neither trace contains an index-file write — `index.json` is written by
`save` alone, which serializes the in-memory index. -/
theorem C4 (urls : PyDict) (url text screenshot pdfBytes urlHash key : String)
    (hh : CacheFileSys._get_url_hash url = .ok urlHash)
    (hk : CacheFileSys._remove_frag_and_slash url = .ok key) :
    CacheFileSys.put_web urls url text screenshot =
      .ok (dictSet urls key "web", webTrace urlHash key text screenshot) ∧
    CacheFileSys.put_pdf urls url pdfBytes =
      .ok (dictSet urls key "pdf", pdfTrace urlHash key pdfBytes) ∧
    (webTrace urlHash key text screenshot).filter isIndexFileWrite = [] ∧
    (pdfTrace urlHash key pdfBytes).filter isIndexFileWrite = [] ∧
    CacheFileSys.save urls = [StoreEvent.indexFileWrite urls] := by
  refine ⟨?_, ?_, rfl, rfl, rfl⟩
  · unfold CacheFileSys.put_web
    rw [hh]
    dsimp only
    rw [hk]
    rfl
  · unfold CacheFileSys.put_pdf
    rw [hh]
    dsimp only
    rw [hk]
    rfl

/-- C4 witness: the two puts of `https://a.com/x` over the empty store,
hash and canonical key computed concretely. -/
theorem C4_witness :
    CacheFileSys.put_web [] "https://a.com/x" "T" "S" =
      .ok (dictSet [] "https://a.com/x" "web",
        webTrace "1c629182247750d8f4da5543e94dd8f8" "https://a.com/x" "T" "S") ∧
    CacheFileSys.put_pdf [] "https://a.com/x" "B" =
      .ok (dictSet [] "https://a.com/x" "pdf",
        pdfTrace "1c629182247750d8f4da5543e94dd8f8" "https://a.com/x" "B") ∧
    (webTrace "1c629182247750d8f4da5543e94dd8f8" "https://a.com/x" "T"
        "S").filter isIndexFileWrite = [] ∧
    (pdfTrace "1c629182247750d8f4da5543e94dd8f8" "https://a.com/x"
        "B").filter isIndexFileWrite = [] ∧
    CacheFileSys.save [] = [StoreEvent.indexFileWrite []] :=
  C4 [] "https://a.com/x" "T" "S" "B" "1c629182247750d8f4da5543e94dd8f8"
    "https://a.com/x" rfl rfl

/-! ## Claim C5 -/

/-- C5 counterexample: the lookup of the code has a step the claimed
three-step order omits — a **direct** dict lookup of the normalized URL
between the exact match and the normalized scan.  Over `c5Store` the
normalized form of the query is itself a stored key (kind `pdf`), while
the claimed order reaches the normalized scan first and returns the
other key (kind `web`). -/
theorem C5_counterexample :
    CacheFileSys.has c5Store "https://A.com/%252520x" = .ok (some "pdf") ∧
    has_claimedOrder c5Store "https://A.com/%252520x" = .ok (some "web") ∧
    (Except.ok (some "pdf") : Except PyErr (Option String)) ≠ .ok (some "web") :=
  ⟨rfl, rfl, by simp⟩

/-- C5 (amended): `has` resolves against the in-memory index only, via
four layered steps — exact key match, direct lookup of the normalized
URL as a key, normalized-comparison scan over every stored key, then
variant-list membership; the first hit wins and its stored kind is
returned, and no hit yields the absence signal. -/
theorem C5_amended (urls : PyDict) (url : String) :
    CacheFileSys.has urls url = has_amendedOrder urls url := rfl

/-! ## Claim C6 -/

/-- C6 counterexample: variant reconciliation fails over a mixed-kind
store.  From the empty store, `put_web` caches `https://a.com/x` as
`web` and `put_pdf` caches `http://a.com/x` as `pdf`; the latter URL is
among the enumerated variants of the former, yet the two lookups report
different kinds. -/
theorem C6_counterexample :
    (CacheFileSys.put_web [] "https://a.com/x" "T" "S").map Prod.fst =
      .ok [("https://a.com/x", "web")] ∧
    (CacheFileSys.put_pdf [("https://a.com/x", "web")] "http://a.com/x"
        "B").map Prod.fst = .ok c6Store ∧
    CacheFileSys.has c6Store "https://a.com/x" = .ok (some "web") ∧
    (CacheFileSys._get_url_variants "https://a.com/x").map
        (fun vs => vs.contains "http://a.com/x") = .ok true ∧
    CacheFileSys.has c6Store "http://a.com/x" = .ok (some "pdf") ∧
    (some "web" : Option String) ≠ some "pdf" :=
  ⟨rfl, rfl, rfl, rfl, rfl, by decide⟩

/-- C6 (amended): over a store whose entries all carry one kind, any
lookup that returns a kind returns that kind — two variants can thus
disagree only by one reporting absence, never in kind.  (The claim as
stated fails both because kinds differ across scheme variants, see the
counterexample, and because the lookup of a variant can simply miss.) -/
theorem C6_amended (urls : PyDict) (kind v : String) (r : Option String)
    (huni : ∀ p ∈ urls, p.2 = kind)
    (hr : CacheFileSys.has urls v = .ok r) :
    r = none ∨ r = some kind := by
  unfold CacheFileSys.has at hr
  cases hf : CacheFileSys._find_url urls v with
  | error e => rw [hf] at hr; try dsimp only at hr
               cases hr
  | ok o' =>
    rw [hf] at hr
    try dsimp only at hr
    cases o' with
    | none =>
      dsimp only at hr
      cases hr
      exact Or.inl rfl
    | some s =>
      dsimp only at hr
      cases hg : dictGet? urls s with
      | none => rw [hg] at hr; try dsimp only at hr
                cases hr
      | some k =>
        rw [hg] at hr
        try dsimp only at hr
        cases hr
        exact Or.inr (congrArg some (dictGet?_uniform huni hg))

/-- C6 amended-claim witness: over the uniform one-entry `web` store, the
lookup of the scheme variant resolves and indeed reports `web`. -/
theorem C6_amended_witness :
    CacheFileSys.has [("https://a.com/x", "web")] "http://a.com/x" =
      .ok (some "web") ∧
    ((some "web" : Option String) = none ∨
      (some "web" : Option String) = some "web") :=
  ⟨rfl, C6_amended [("https://a.com/x", "web")] "web" "http://a.com/x"
    (some "web")
    (by
      intro p hp
      rcases List.mem_cons.mp hp with rfl | hp
      · rfl
      · cases hp)
    rfl⟩

/-! ## Claim C7 -/

/-- C7: a URL the store already reports cached short-circuits
`crawl_one_page` — no capture, no store event, state unchanged — and a
crawl over a URL set entirely cached performs zero captures and leaves
the store exactly as it was. -/
theorem C7 (o : CrawlOracle) (st : PyDict) (urls : List String)
    (url kind : String)
    (hkind : kind ≠ "")
    (hcached : CacheFileSys.has st url = .ok (some kind))
    (hall : ∀ u ∈ urls, ∃ k, k ≠ "" ∧ CacheFileSys.has st u = .ok (some k)) :
    crawl_one_page o st url = ⟨st, [], 0, 0, 0⟩ ∧
    crawlAll o st urls = (st, 0) :=
  ⟨crawl_one_page_cached o st url kind hkind hcached,
   crawlAll_cached o st urls hall⟩

/-- C7 witness: a second run over the singleton cached URL set — even
with a capture oracle that would succeed — performs zero captures. -/
theorem C7_witness :
    crawl_one_page successCaptureOracle [("https://a.com/x", "web")]
        "https://a.com/x" = ⟨[("https://a.com/x", "web")], [], 0, 0, 0⟩ ∧
    crawlAll successCaptureOracle [("https://a.com/x", "web")]
        ["https://a.com/x"] = ([("https://a.com/x", "web")], 0) :=
  C7 successCaptureOracle [("https://a.com/x", "web")] ["https://a.com/x"]
    "https://a.com/x" "web" (by decide) rfl
    (by
      intro u hu
      rcases List.mem_cons.mp hu with rfl | hu
      · exact ⟨"web", by decide, rfl⟩
      · cases hu)

/-! ## Claim C8 -/

/-- C8 counterexample: the canonical key is **not** merely
fragment-strip + percent-decode + slash-trim — on a fragment-bearing URL
`_remove_frag_and_slash` goes through the full `urldefrag`
parse/unparse round-trip, which here also lower-cases the scheme, so the
result differs from the literal reading of the claim. -/
theorem C8_counterexample :
    canonicalKeySpec "HTTP://a.com/x#f" = "HTTP://a.com/x" ∧
    CacheFileSys._remove_frag_and_slash "HTTP://a.com/x#f" =
      .ok "http://a.com/x" ∧
    "HTTP://a.com/x" ≠ "http://a.com/x" :=
  ⟨rfl, rfl, by decide⟩

/-- C8 (amended): the canonical key is the `urldefrag` round-trip of the
URL (which can lower-case the scheme, drop empty parameter segments,
strip tab/CR/LF, and raise on an unbalanced bracketed authority),
percent-decoded, with one trailing slash removed unless the decoded
string is exactly `/` or ends in `://`; the payload hash key is the MD5
hex digest of exactly this canonical form, so equal canonical forms give
equal hash filenames. -/
theorem C8_amended (u1 u2 c1 c2 : String)
    (h1 : CacheFileSys._remove_frag_and_slash u1 = .ok c1)
    (h2 : CacheFileSys._remove_frag_and_slash u2 = .ok c2)
    (heq : c1 = c2) :
    canonicalKeyAmended u1 = .ok c1 ∧
    CacheFileSys._get_url_hash u1 = .ok (md5Hex c1) ∧
    CacheFileSys._get_url_hash u2 = .ok (md5Hex c1) ∧
    CacheFileSys._get_url_hash u1 = CacheFileSys._get_url_hash u2 := by
  have e1 : CacheFileSys._get_url_hash u1 = .ok (md5Hex c1) := by
    unfold CacheFileSys._get_url_hash
    rw [h1]
  have e2 : CacheFileSys._get_url_hash u2 = .ok (md5Hex c2) := by
    unfold CacheFileSys._get_url_hash
    rw [h2]
  refine ⟨?_, e1, ?_, ?_⟩
  · rw [← rfs_eq_canonicalKeyAmended]
    exact h1
  · rw [e2, heq]
  · rw [e1, e2, heq]

/-- C8 amended-claim witness: a fragment-bearing upper-case-scheme URL
and a trailing-slash URL share the canonical form `http://a.com/x` and
hence the hash filename. -/
theorem C8_amended_witness :
    CacheFileSys._remove_frag_and_slash "HTTP://a.com/x#f" =
      .ok "http://a.com/x" ∧
    (canonicalKeyAmended "HTTP://a.com/x#f" = .ok "http://a.com/x" ∧
     CacheFileSys._get_url_hash "HTTP://a.com/x#f" =
       .ok (md5Hex "http://a.com/x") ∧
     CacheFileSys._get_url_hash "http://a.com/x/" =
       .ok (md5Hex "http://a.com/x") ∧
     CacheFileSys._get_url_hash "HTTP://a.com/x#f" =
       CacheFileSys._get_url_hash "http://a.com/x/") :=
  ⟨rfl, C8_amended "HTTP://a.com/x#f" "http://a.com/x/" "http://a.com/x"
    "http://a.com/x" rfl rfl rfl⟩

/-! ## Claim C9 -/

/-- C9 counterexample: `has` is **not** total on arbitrary strings — on
the malformed input `http://[` the normalization step reaches the
unbalanced-bracket check of `urlsplit` and the `ValueError` escapes to
the caller. -/
theorem C9_counterexample :
    CacheFileSys.has [] "http://[" = .error PyErr.valueError := rfl

/-- C9 (amended): `has` either returns — the absence signal, or the kind
of some stored entry — or raises exactly the `ValueError` coming from URL
parsing; in particular it never raises `KeyError`, because every key the
resolution step finds is a genuine key of the in-memory index. -/
theorem C9_amended (urls : PyDict) (url : String) :
    (∃ r, CacheFileSys.has urls url = .ok r ∧
      (r = none ∨ ∃ p, p ∈ urls ∧ r = some p.2)) ∨
    CacheFileSys.has urls url = .error PyErr.valueError := by
  unfold CacheFileSys.has
  cases hf : CacheFileSys._find_url urls url with
  | error e =>
    right
    dsimp only
    rw [find_url_error_eq hf]
  | ok o' =>
    cases o' with
    | none => exact Or.inl ⟨none, rfl, Or.inl rfl⟩
    | some s =>
      have hc := find_url_mem hf
      obtain ⟨v, hv⟩ := dictGet?_of_contains hc
      obtain ⟨p, hp, hps, hpv⟩ := dictGet?_mem hv
      left
      refine ⟨some v, ?_, Or.inr ⟨p, hp, ?_⟩⟩
      · dsimp only
        rw [hv]
      · exact (congrArg some hpv).symm

/-! ## Claim C10 -/

/-- C10 counterexample: put-then-lookup is **not** guaranteed over a
non-empty store — an older entry whose normalization matches intercepts
the scan before the key that `put_web` just wrote.  From the empty
store, `put_pdf` caches `http://a.com/x`; `put_web` then caches
`https://A.com/x/` under its canonical key `https://A.com/x`; the lookup
of `https://A.com/x/` misses the exact and the direct-normalized steps
(slash, case), and the normalized scan hits the older `pdf` entry
first. -/
theorem C10_counterexample :
    (CacheFileSys.put_pdf [] "http://a.com/x" "B").map Prod.fst =
      .ok [("http://a.com/x", "pdf")] ∧
    (CacheFileSys.put_web [("http://a.com/x", "pdf")] "https://A.com/x/" "T"
        "S").map Prod.fst =
      .ok [("http://a.com/x", "pdf"), ("https://A.com/x", "web")] ∧
    CacheFileSys.has [("http://a.com/x", "pdf"), ("https://A.com/x", "web")]
        "https://A.com/x/" = .ok (some "pdf") ∧
    (Except.ok (some "pdf") : Except PyErr (Option String)) ≠ .ok (some "web") :=
  ⟨rfl, rfl, rfl, by simp⟩

/-- C10 (amended): over the **empty** store the put/lookup round-trip
holds — after `put_web u` the lookup of `u` reports `web`, and after
`put_pdf u` it reports `pdf`: the canonical key a put writes is always
among the variant candidates the lookup enumerates for `u`. -/
theorem C10_amended (u c n text shot pdfBytes : String) (vs : List String)
    (stw stp : PyDict) (evw evp : List StoreEvent)
    (hc : CacheFileSys._remove_frag_and_slash u = .ok c)
    (hn : normalize_url_simple u = .ok n)
    (hv : CacheFileSys._get_url_variants u = .ok vs)
    (hw : CacheFileSys.put_web [] u text shot = .ok (stw, evw))
    (hp : CacheFileSys.put_pdf [] u pdfBytes = .ok (stp, evp)) :
    CacheFileSys.has stw u = .ok (some "web") ∧
    CacheFileSys.has stp u = .ok (some "pdf") := by
  have hh : CacheFileSys._get_url_hash u = .ok (md5Hex c) := by
    unfold CacheFileSys._get_url_hash
    rw [hc]
  unfold CacheFileSys.put_web at hw
  rw [hh] at hw
  dsimp only at hw
  rw [hc] at hw
  dsimp only at hw
  injection hw with hw
  have hst : dictSet [] c "web" = stw := congrArg Prod.fst hw
  unfold CacheFileSys.put_pdf at hp
  rw [hh] at hp
  dsimp only at hp
  rw [hc] at hp
  dsimp only at hp
  injection hp with hp
  have hsp : dictSet [] c "pdf" = stp := congrArg Prod.fst hp
  have hdw : dictSet [] c "web" = [(c, "web")] := rfl
  have hdp : dictSet [] c "pdf" = [(c, "pdf")] := rfl
  refine ⟨?_, ?_⟩
  · rw [← hst, hdw]
    exact has_singleton hc hn hv
  · rw [← hsp, hdp]
    exact has_singleton hc hn hv

/-- C10 amended-claim witness: both put/lookup round-trips for
`https://a.com/x` over the empty store. -/
theorem C10_amended_witness :
    CacheFileSys.has [("https://a.com/x", "web")] "https://a.com/x" =
      .ok (some "web") ∧
    CacheFileSys.has [("https://a.com/x", "pdf")] "https://a.com/x" =
      .ok (some "pdf") :=
  C10_amended "https://a.com/x" "https://a.com/x" "https://a.com/x" "T" "S"
    "B" _ [("https://a.com/x", "web")] [("https://a.com/x", "pdf")] _ _
    rfl rfl rfl rfl rfl

end M2W2
